import Mathlib

/-!
# Status-bar widgets (`components/widgets.c`)

A shallow embedding of the metric helpers of `components/widgets.c` and the
properties of the specification that were checked against them.

Conventions of the embedding.

* A `long double` and a `double` are the rationals they hold. Every `long
  double` addition, subtraction, multiplication and division rounds its exact
  result to the 64 significant bits of the x87 extended format
  (`roundLongDouble`); a conversion `(double)n` and a division of `double`
  values round to 53 significant bits (`roundDouble`). Ties go to the even
  significand; exponent ranges are not modelled.
* `uintmax_t` and `unsigned long` arithmetic is taken modulo `2 ^ 64`.
* A C `int` is a mathematical integer together with the range
  `INT_MIN .. INT_MAX`; an expression whose value the C language leaves
  undefined (division by zero, signed overflow, a floating value converted to
  `int` outside that range, a write past the end of a buffer) evaluates to
  `Except.error` with the reason.
* The `static` array of `widgets_helper_cpu_perc_num` is threaded through the
  function: it takes the persisted sample and returns the new one next to the
  result.
* `pscanf`, `esnprintf` and `bprintf` live in `util.c`, outside the file
  embedded here; what the callers see of them is modelled below. The outcome
  of a read (a scan of a pseudo-file, a `statvfs` query) is an argument of the
  helper that performs it.
-/

namespace Widgets

/-! ## C arithmetic -/

/-- Reasons for which a C expression of the source has no defined value. -/
inductive CUndef where
  | divByZero
  | intOverflow
  | castOutOfRange
  | bufferOverrun
  deriving DecidableEq

/-- Smallest value of a 32-bit C `int`. -/
def INT_MIN : Int := -2147483648

/-- Largest value of a 32-bit C `int`. -/
def INT_MAX : Int := 2147483647

/-- Whether an integer is representable as a C `int`. -/
def inIntRange (z : Int) : Prop := INT_MIN ≤ z ∧ z ≤ INT_MAX

instance (z : Int) : Decidable (inIntRange z) := by
  unfold inIntRange; infer_instance

/-- Integral part of a value, the fractional part discarded (rounding toward
zero), as a floating-to-integer conversion does. -/
def truncToInt (q : ℚ) : Int := if 0 ≤ q then ⌊q⌋ else ⌈q⌉

/-- The conversion `(int)x` of a floating value: the integral part when it is
representable, undefined otherwise. -/
def castInt (q : ℚ) : Except CUndef Int :=
  if inIntRange (truncToInt q) then .ok (truncToInt q) else .error .castOutOfRange

/-- The product `x * y` of two `int` values: undefined on signed overflow. -/
def mulInt (x y : Int) : Except CUndef Int :=
  if inIntRange (x * y) then .ok (x * y) else .error .intOverflow

/-- The quotient `x / y` of two `int` values: truncating division, undefined
for a zero divisor and for `INT_MIN / -1`. -/
def divInt (x y : Int) : Except CUndef Int :=
  if y = 0 then .error .divByZero
  else if inIntRange (Int.tdiv x y) then .ok (Int.tdiv x y)
  else .error .intOverflow

/-- Nearest integer, a tie going to the even neighbour. -/
def roundHalfEven (q : ℚ) : Int :=
  if q - ⌊q⌋ < 1 / 2 then ⌊q⌋
  else if 1 / 2 < q - ⌊q⌋ then ⌊q⌋ + 1
  else if ⌊q⌋ % 2 = 0 then ⌊q⌋ else ⌊q⌋ + 1

/-- The `long double` nearest to an exact value: the 64 significant bits of
the x87 extended format, a tie going to the even significand. The exponent
range is not modelled. -/
def roundLongDouble (q : ℚ) : ℚ :=
  if q = 0 then 0
  else roundHalfEven (q / (2 : ℚ) ^ (Int.log 2 |q| - 63)) * (2 : ℚ) ^ (Int.log 2 |q| - 63)

/-- The sum `x + y` of two `long double` values. -/
def addLD (x y : ℚ) : ℚ := roundLongDouble (x + y)

/-- The difference `x - y` of two `long double` values. -/
def subLD (x y : ℚ) : ℚ := roundLongDouble (x - y)

/-- The product `x * y` of two `long double` values. -/
def mulLD (x y : ℚ) : ℚ := roundLongDouble (x * y)

/-- The quotient `x / y` of two `long double` values. -/
def divLD (x y : ℚ) : ℚ := roundLongDouble (x / y)

/-! ## CPU utilization -/

/-- The seven cumulative counters of the first line of `/proc/stat`, by
position (user, nice, system, idle, iowait, irq, softirq): the arrays `a` and
`b` of `widgets_helper_cpu_perc_num`. -/
structure CpuSample where
  c0 : ℚ
  c1 : ℚ
  c2 : ℚ
  c3 : ℚ
  c4 : ℚ
  c5 : ℚ
  c6 : ℚ
  deriving DecidableEq

namespace CpuSample

/-- The counters in file order. -/
def toList (s : CpuSample) : List ℚ := [s.c0, s.c1, s.c2, s.c3, s.c4, s.c5, s.c6]

/-- Exact sum of all seven counters. -/
def total (s : CpuSample) : ℚ := s.c0 + s.c1 + s.c2 + s.c3 + s.c4 + s.c5 + s.c6

/-- Exact sum of the counters at positions 0, 1, 2, 5 and 6. -/
def active (s : CpuSample) : ℚ := s.c0 + s.c1 + s.c2 + s.c5 + s.c6

/-- The sum `x[0] + x[1] + x[2] + x[3] + x[4] + x[5] + x[6]` as the code
evaluates it: left to right, every addition rounded to a `long double`. -/
def sumLD (s : CpuSample) : ℚ :=
  addLD (addLD (addLD (addLD (addLD (addLD s.c0 s.c1) s.c2) s.c3) s.c4) s.c5) s.c6

/-- The sum `x[0] + x[1] + x[2] + x[5] + x[6]` as the code evaluates it. -/
def activeLD (s : CpuSample) : ℚ :=
  addLD (addLD (addLD (addLD s.c0 s.c1) s.c2) s.c5) s.c6

/-- Every counter of `s` is at most the same counter of `t`. -/
def Le (s t : CpuSample) : Prop :=
  s.c0 ≤ t.c0 ∧ s.c1 ≤ t.c1 ∧ s.c2 ≤ t.c2 ∧ s.c3 ≤ t.c3 ∧ s.c4 ≤ t.c4 ∧
    s.c5 ≤ t.c5 ∧ s.c6 ≤ t.c6

end CpuSample

/-- A sample whose seven counters are whole numbers of ticks, as the kernel
writes them. -/
structure CpuTicks where
  t0 : Nat
  t1 : Nat
  t2 : Nat
  t3 : Nat
  t4 : Nat
  t5 : Nat
  t6 : Nat
  deriving DecidableEq

namespace CpuTicks

/-- The sample as the `long double` values the scan stores. -/
def toSample (t : CpuTicks) : CpuSample := ⟨t.t0, t.t1, t.t2, t.t3, t.t4, t.t5, t.t6⟩

/-- Sum of all seven counters. -/
def total (t : CpuTicks) : Nat := t.t0 + t.t1 + t.t2 + t.t3 + t.t4 + t.t5 + t.t6

/-- Sum of the counters at positions 0, 1, 2, 5 and 6. -/
def active (t : CpuTicks) : Nat := t.t0 + t.t1 + t.t2 + t.t5 + t.t6

/-- Every counter of `s` is at most the same counter of `t`. -/
def Le (s t : CpuTicks) : Prop :=
  s.t0 ≤ t.t0 ∧ s.t1 ≤ t.t1 ∧ s.t2 ≤ t.t2 ∧ s.t3 ≤ t.t3 ∧ s.t4 ≤ t.t4 ∧
    s.t5 ≤ t.t5 ∧ s.t6 ≤ t.t6

instance (s t : CpuTicks) : Decidable (s.Le t) := by
  unfold Le; infer_instance

end CpuTicks

/-- Modelled from the spec: the outcome of `pscanf(path, fmt, ...)` of
`util.c` on a pattern of numeric fields. `none` is a file that cannot be
opened, or that ends before the first field; `some vs` lists the fields that
were converted, in order, before the scan stopped, each as the value the
conversion stores. -/
abbrev ScanOutcome (α : Type) := Option (List α)

/-- Modelled from the spec: the value `pscanf` returns for a pattern of `n`
fields, the number of fields converted and stored, or `-1`. -/
def pscanfRet {α : Type} (n : Nat) : ScanOutcome α → Int
  | none => -1
  | some vs => (min vs.length n : Nat)

/-- Modelled from the spec: what the scan of `/proc/stat` leaves in the seven
targets `&a[0] .. &a[6]`. Each converted field is stored through its pointer
as soon as it is converted; targets of fields that were not reached keep
their content. -/
def pscanfStore7 (a : CpuSample) : ScanOutcome ℚ → CpuSample
  | none => a
  | some [] => a
  | some [v0] => { a with c0 := v0 }
  | some [v0, v1] => { a with c0 := v0, c1 := v1 }
  | some [v0, v1, v2] => { a with c0 := v0, c1 := v1, c2 := v2 }
  | some [v0, v1, v2, v3] => { a with c0 := v0, c1 := v1, c2 := v2, c3 := v3 }
  | some [v0, v1, v2, v3, v4] =>
      { a with c0 := v0, c1 := v1, c2 := v2, c3 := v3, c4 := v4 }
  | some [v0, v1, v2, v3, v4, v5] =>
      { a with c0 := v0, c1 := v1, c2 := v2, c3 := v3, c4 := v4, c5 := v5 }
  | some (v0 :: v1 :: v2 :: v3 :: v4 :: v5 :: v6 :: _) => ⟨v0, v1, v2, v3, v4, v5, v6⟩

/-- `widgets_helper_cpu_perc_num`: the argument `a` is the content of the
`static` array on entry, `scan` the outcome of reading `/proc/stat`. Returns
the function result and the content of the `static` array on exit. The sums
are evaluated left to right and, like the difference, the product by 100 and
the quotient, rounded to a `long double` one operation at a time. -/
def widgets_helper_cpu_perc_num (a : CpuSample) (scan : ScanOutcome ℚ) :
    Except CUndef Int × CpuSample :=
  let b := a
  let a := pscanfStore7 a scan
  if pscanfRet 7 scan ≠ 7 then (.ok 0, a)
  else if b.c0 = 0 then (.ok 0, a)
  else
    let sum :=
      subLD (addLD (addLD (addLD (addLD (addLD (addLD b.c0 b.c1) b.c2) b.c3) b.c4) b.c5) b.c6)
            (addLD (addLD (addLD (addLD (addLD (addLD a.c0 a.c1) a.c2) a.c3) a.c4) a.c5) a.c6)
    if sum = 0 then (.ok 0, a)
    else
      (castInt (divLD
                 (mulLD 100
                   (subLD (addLD (addLD (addLD (addLD b.c0 b.c1) b.c2) b.c5) b.c6)
                          (addLD (addLD (addLD (addLD a.c0 a.c1) a.c2) a.c5) a.c6)))
                 sum), a)

/-! ## Battery -/

/-- The constant `PATH_MAX` of `<limits.h>`: size of the `path` buffers. -/
def PATH_MAX : Nat := 4096

/-- Modelled from the spec: `esnprintf(buf, size, fmt, arg)` of `util.c` for a
path template with one `%s`, given as the text before and after the `%s`. The
formatted path when it fits a buffer of `size` bytes together with its
terminator, `none` (a negative return value) when it does not. -/
def esnprintf (size : Nat) (before after : String) (arg : String) : Option String :=
  if (before ++ arg ++ after).utf8ByteSize < size then some (before ++ arg ++ after)
  else none

/-- The pseudo-files the battery helpers read. `scanInt path` is the outcome
of `pscanf(path, "%d", &x)`: the `int` that was converted, or `none` when the
call does not return 1. `content path` is the text of the file at `path`, or
`none` when it cannot be opened. The values of `scanInt` stand for C `int`s;
a statement that depends on their range assumes `inIntRange` of them. -/
structure Sysfs where
  scanInt : String → Option Int
  content : String → Option String

/-- `widgets_helper_battery_charge_full`. -/
def widgets_helper_battery_charge_full (fs : Sysfs) (bat : String) : Int :=
  match esnprintf PATH_MAX "/sys/class/power_supply/" "/charge_full" bat with
  | none => 0
  | some path =>
    match fs.scanInt path with
    | none => 0
    | some battery_cap => battery_cap

/-- `widgets_helper_battery_charge_now`. -/
def widgets_helper_battery_charge_now (fs : Sysfs) (bat : String) : Int :=
  match esnprintf PATH_MAX "/sys/class/power_supply/" "/charge_now" bat with
  | none => 0
  | some path =>
    match fs.scanInt path with
    | none => 0
    | some battery_now => battery_now

/-- The expression `(charge_now * 100) / charge_full` on `int` operands. -/
def battery_perc_expr (charge_now charge_full : Int) : Except CUndef Int :=
  match mulInt charge_now 100 with
  | .error e => .error e
  | .ok p => divInt p charge_full

/-- `widgets_helper_battery_perc`. -/
def widgets_helper_battery_perc (fs : Sysfs) (bat : String) : Except CUndef Int :=
  let charge_now := widgets_helper_battery_charge_now fs bat
  let charge_full := widgets_helper_battery_charge_full fs bat
  battery_perc_expr charge_now charge_full

/-- `widget_helper_battery_normalized_level`. -/
def widget_helper_battery_normalized_level (level : Int) : Int :=
  if level < 5 then 0
  else if level < 15 then 10
  else if level < 25 then 20
  else if level < 35 then 30
  else if level < 45 then 40
  else if level < 55 then 50
  else if level < 65 then 60
  else if level < 75 then 70
  else if level < 85 then 80
  else if level < 95 then 90
  else 100

/-- `enum BATTERY_STATE`. -/
inductive BATTERY_STATE where
  | UNKNOWN
  | NOT_CHARGING
  | CHARGING
  | DISCHARGING
  | CHARGED
  deriving DecidableEq

/-- The table `map` of `widgets_helper_battery_state`. -/
def stateMap : List (String × BATTERY_STATE) :=
  [("Charging", .CHARGING),
   ("Discharging", .DISCHARGING),
   ("Full", .CHARGED),
   ("Not charging", .NOT_CHARGING)]

/-- The character class `[a-zA-Z ]` of the status pattern. -/
def inStatusClass (c : Char) : Bool :=
  ('a' ≤ c && c ≤ 'z') || ('A' ≤ c && c ≤ 'Z') || c == ' '

/-- Maximum field width of the status pattern `%12[a-zA-Z ]`. -/
def statusScanWidth : Nat := 12

/-- Declared size of the buffer `state`, in bytes. -/
def statusBufSize : Nat := 12

/-- Modelled from the spec: `pscanf(path, "%12[a-zA-Z ]", state)` on a file
with the given content. The field is the longest run of class characters at
the start of the content, cut at the field width; the scan fails (`none`)
when that run is empty. The result is the string the scan writes to `state`,
terminator not counted. -/
def scanStatus (content : String) : Option String :=
  if ((content.toList.takeWhile inStatusClass).take statusScanWidth).isEmpty then none
  else some (String.mk ((content.toList.takeWhile inStatusClass).take statusScanWidth))

/-- The text that lines 198-201 of `widgets_helper_battery_state` scan from the
status file, `none` when `esnprintf` or `pscanf` fails (both return
`UNKNOWN`). -/
def statusText (fs : Sysfs) (bat : String) : Option String :=
  match esnprintf PATH_MAX "/sys/class/power_supply/" "/status" bat with
  | none => none
  | some path =>
    match fs.content path with
    | none => none
    | some content => scanStatus content

/-- The loop `for (i = 0; i < LEN(map); i++) if (!strcmp(map[i].state, state))
break;` started at index `i` on the entries from `i` on: the value of `i` after
the loop. -/
def searchMap (state : String) : List (String × BATTERY_STATE) → Nat → Nat
  | [], i => i
  | entry :: rest, i => if entry.1 = state then i else searchMap state rest (i + 1)

/-- `widgets_helper_battery_state`. The scan writes the field and its
terminating NUL into `state`; when these are more bytes than `state` holds,
the write runs past the end of the buffer and the call has no defined
result. -/
def widgets_helper_battery_state (fs : Sysfs) (bat : String) :
    Except CUndef BATTERY_STATE :=
  match statusText fs bat with
  | none => .ok .UNKNOWN
  | some state =>
    if statusBufSize < state.utf8ByteSize + 1 then .error .bufferOverrun
    else
      let i := searchMap state stateMap 0
      .ok (if i = stateMap.length then .UNKNOWN else (stateMap.getD i ("", .UNKNOWN)).2)

/-- The glyph returned after the `switch` of `widgets_helper_battery_icon`. -/
def battery_icon_fallback : String := "󰂎"

/-- `widgets_helper_battery_icon`: the `switch` over `level`, one case per
table level. -/
def widgets_helper_battery_icon (state : BATTERY_STATE) (level : Int) : String :=
  if level = 0 then (if state = .CHARGING then "󰢟" else "󰂎")
  else if level = 10 then (if state = .CHARGING then "󰢜" else "󰁺")
  else if level = 20 then (if state = .CHARGING then "󰂆" else "󰁻")
  else if level = 30 then (if state = .CHARGING then "󰂇" else "󰁼")
  else if level = 40 then (if state = .CHARGING then "󰂈" else "󰁽")
  else if level = 50 then (if state = .CHARGING then "󰢝" else "󰁾")
  else if level = 60 then (if state = .CHARGING then "󰂉" else "󰁿")
  else if level = 70 then (if state = .CHARGING then "󰢞" else "󰂀")
  else if level = 80 then (if state = .CHARGING then "󰂊" else "󰂁")
  else if level = 90 then (if state = .CHARGING then "󰂋" else "󰂂")
  else if level = 100 then (if state = .CHARGING then "󰂅" else "󰁹")
  else battery_icon_fallback

/-- The levels that have a `case` in `widgets_helper_battery_icon`. -/
def tableLevels : List Int := [0, 10, 20, 30, 40, 50, 60, 70, 80, 90, 100]

/-- The `switch` of `widgets_helper_battery_icon` on its own: the glyph returned
by the `case` that `level` hits, `none` when no `case` is hit and control
reaches the `return` after the `switch`. -/
def battery_icon_switch (state : BATTERY_STATE) (level : Int) : Option String :=
  if level = 0 then some (if state = .CHARGING then "󰢟" else "󰂎")
  else if level = 10 then some (if state = .CHARGING then "󰢜" else "󰁺")
  else if level = 20 then some (if state = .CHARGING then "󰂆" else "󰁻")
  else if level = 30 then some (if state = .CHARGING then "󰂇" else "󰁼")
  else if level = 40 then some (if state = .CHARGING then "󰂈" else "󰁽")
  else if level = 50 then some (if state = .CHARGING then "󰢝" else "󰁾")
  else if level = 60 then some (if state = .CHARGING then "󰂉" else "󰁿")
  else if level = 70 then some (if state = .CHARGING then "󰢞" else "󰂀")
  else if level = 80 then some (if state = .CHARGING then "󰂊" else "󰂁")
  else if level = 90 then some (if state = .CHARGING then "󰂋" else "󰂂")
  else if level = 100 then some (if state = .CHARGING then "󰂅" else "󰁹")
  else none

/-- The read of the `int` file `file` of battery `bat` fails: the path does
not fit the buffer, or the scan of the file at that path does not convert one
field. -/
def intReadFails (fs : Sysfs) (bat : String) (file : String) : Prop :=
  ∀ path : String, esnprintf PATH_MAX "/sys/class/power_supply/" file bat = some path →
    fs.scanInt path = none

/-- Modelled from the spec: the conversion `%d` of `bprintf` (`util.c`): an
`int` in decimal, with a minus sign when negative. -/
def fmtD (d : Int) : String := toString d

/-- `widgets_battery`: the text `bprintf("%s %d%%", icon, perc)` builds, the
icon, a space, the percentage in decimal and a percent sign. -/
def widgets_battery (fs : Sysfs) (bat : String) : Except CUndef String :=
  match widgets_helper_battery_perc fs bat with
  | .error e => .error e
  | .ok perc =>
    let level := widget_helper_battery_normalized_level perc
    match widgets_helper_battery_state fs bat with
    | .error e => .error e
    | .ok state => .ok (widgets_helper_battery_icon state level ++ " " ++ fmtD perc ++ "%")

/-! ## Unsigned and `double` arithmetic -/

/-- Number of values of `uintmax_t` and of `unsigned long`: `2 ^ 64`. -/
def UINT64_SIZE : Nat := 18446744073709551616

/-- The sum `x + y` of two 64-bit unsigned values. -/
def addU64 (x y : Nat) : Nat := (x + y) % UINT64_SIZE

/-- The difference `x - y` of two 64-bit unsigned values. -/
def subU64 (x y : Nat) : Nat := (x % UINT64_SIZE + UINT64_SIZE - y % UINT64_SIZE) % UINT64_SIZE

/-- The product `x * y` of two 64-bit unsigned values. -/
def mulU64 (x y : Nat) : Nat := (x * y) % UINT64_SIZE

/-- Conversion of an unsigned 64-bit value to `int`, as the `return` of
`widgets_helper_cpu_temp` does: a value above `INT_MAX` is reduced modulo
`2 ^ 32` into the range of `int` (the result GCC and Clang define). -/
def convInt (n : Nat) : Int := ((n : Int) + 2147483648) % 4294967296 - 2147483648

/-- The `double` nearest to an exact value: 53 significant bits, a tie going
to the even significand. The exponent range is not modelled; the values met
here lie between `2 ^ (-30)` and `2 ^ 64`. -/
def roundDouble (q : ℚ) : ℚ :=
  if q = 0 then 0
  else roundHalfEven (q / (2 : ℚ) ^ (Int.log 2 |q| - 52)) * (2 : ℚ) ^ (Int.log 2 |q| - 52)

/-- The conversion `(double)n` of an unsigned 64-bit value. -/
def toDouble (n : Nat) : ℚ := roundDouble n

/-- The quotient `x / y` of two `double` values. -/
def divDouble (x y : ℚ) : ℚ := roundDouble (x / y)

/-- The non-negative values a `double` holds exactly (exponent range apart):
a significand below `2 ^ 53` times a power of two. -/
def IsDouble (x : ℚ) : Prop := ∃ (m : ℕ) (j : ℤ), m < 2 ^ 53 ∧ x = (m : ℚ) * (2 : ℚ) ^ j

/-- Modelled from the spec: the conversion `%.1f` of `bprintf` (`util.c`): one
decimal place, the exact value rounded to the nearest tenth, a tie going to
the even digit. -/
def fmtF1 (q : ℚ) : String :=
  (if q < 0 then "-" else "") ++ toString (roundHalfEven (|q| * 10) / 10) ++ "." ++
    toString (roundHalfEven (|q| * 10) % 10)

/-- Modelled from the spec: a minimum field width of `bprintf`, blanks added
on the left. -/
def fmtWidth (w : Nat) (s : String) : String :=
  String.mk (List.replicate (w - s.length) ' ') ++ s

/-! ## CPU frequency and temperature, memory, disk -/

/-- `widgets_helper_cpu_freq_num`: `scan` is the outcome of reading the
frequency file with `"%ju"`. -/
def widgets_helper_cpu_freq_num (scan : ScanOutcome Nat) : ℚ :=
  if pscanfRet 1 scan ≠ 1 then 0
  else
    let freq := (scan.getD []).getD 0 0
    divDouble (toDouble freq) 1000000

/-- `widgets_helper_cpu_temp`: `scan` is the outcome of reading the thermal
zone file with `"%ju"`. -/
def widgets_helper_cpu_temp (scan : ScanOutcome Nat) : Int :=
  if pscanfRet 1 scan ≠ 1 then 0
  else
    let temp := (scan.getD []).getD 0 0
    convInt (temp / 1000)

/-- The value of `used` in `widgets_helper_ram_used`:
`(total - free - buffers - cached) + shmem` on `uintmax_t`. -/
def ram_used_kb (total free buffers cached shmem : Nat) : Nat :=
  addU64 (subU64 (subU64 (subU64 total free) buffers) cached) shmem

/-- `widgets_helper_ram_used`: `scan` is the outcome of reading `/proc/meminfo`
with the pattern of 23 fields. Field 0 goes to `total`, 1 to `free`, 3 to
`buffers`, 4 to `cached`, 22 to `shmem`, the others to `dummy`. -/
def widgets_helper_ram_used (scan : ScanOutcome Nat) : ℚ :=
  if pscanfRet 23 scan ≠ 23 then 0
  else
    let total := (scan.getD []).getD 0 0
    let free := (scan.getD []).getD 1 0
    let buffers := (scan.getD []).getD 3 0
    let cached := (scan.getD []).getD 4 0
    let shmem := (scan.getD []).getD 22 0
    let used := ram_used_kb total free buffers cached shmem
    divDouble (divDouble (toDouble used) 1024) 1024

/-- `widgets_ram`: the text `bprintf("%.1fGb", ...)` builds. -/
def widgets_ram (scan : ScanOutcome Nat) : String :=
  fmtF1 (widgets_helper_ram_used scan) ++ "Gb"

/-- The two members of `struct statvfs` that are read, both `unsigned long`. -/
structure Statvfs where
  f_frsize : Nat
  f_bavail : Nat

/-- `widgets_helper_disk_free`: `statvfs path` is what the system call stores
for `path`, `none` when it returns a negative value. -/
def widgets_helper_disk_free (statvfs : String → Option Statvfs) (path : String) : ℚ :=
  match statvfs path with
  | none => 0
  | some fs =>
    divDouble (divDouble (divDouble (toDouble (mulU64 fs.f_frsize fs.f_bavail)) 1024) 1024)
      1024

/-- `widgets_disk`: the text `bprintf("%3.1fGb", ...)` builds. -/
def widgets_disk (statvfs : String → Option Statvfs) (path : String) : String :=
  fmtWidth 3 (fmtF1 (widgets_helper_disk_free statvfs path)) ++ "Gb"

/-! ## Example inputs -/

/-- A battery `BAT0` whose `charge_now` reads 2500000 and whose `charge_full`
cannot be read; its status file holds `charging` in lower case. -/
def sysfsNoFull : Sysfs where
  scanInt := fun path =>
    if path = "/sys/class/power_supply/BAT0/charge_now" then some 2500000 else none
  content := fun path =>
    if path = "/sys/class/power_supply/BAT0/status" then some "charging\n" else none

/-- A battery `BAT0` at 2500000 of 5000000 whose status file holds
`Discharging`. -/
def sysfsHalf : Sysfs where
  scanInt := fun path =>
    if path = "/sys/class/power_supply/BAT0/charge_now" then some 2500000
    else if path = "/sys/class/power_supply/BAT0/charge_full" then some 5000000
    else none
  content := fun path =>
    if path = "/sys/class/power_supply/BAT0/status" then some "Discharging\n" else none

/-- A battery `BAT0` whose charge files read `charge_now` and `charge_full`
and whose status file holds `status`. -/
def sysfsOf (charge_now charge_full : Int) (status : String) : Sysfs where
  scanInt := fun path =>
    if path = "/sys/class/power_supply/BAT0/charge_now" then some charge_now
    else if path = "/sys/class/power_supply/BAT0/charge_full" then some charge_full
    else none
  content := fun path =>
    if path = "/sys/class/power_supply/BAT0/status" then some status else none

/-- No pseudo-file of any battery can be read. -/
def sysfsEmpty : Sysfs where
  scanInt := fun _ => none
  content := fun _ => none

/-- The counters of the memory example: `total`, `free`, `MemAvailable`,
`buffers`, `cached`, seventeen further fields and `shmem`, in kilobytes. -/
def meminfoExample : List Nat :=
  [16000000, 1000000, 12000000, 200000, 3000000, 0, 0, 0, 0, 0, 0, 0, 0, 0, 0, 0, 0, 0, 0, 0,
   0, 0, 100000]

/-- A file system with fragments of 4096 bytes and 2500000 available blocks,
whatever the path. -/
def statvfsExample : String → Option Statvfs := fun _ => some ⟨4096, 2500000⟩

/-- Concrete samples used in the examples below. -/
def sampleA : CpuSample := ⟨100, 0, 0, 100, 0, 0, 0⟩

/-- A later sample than `sampleA`: 200 more active ticks, 100 more idle. -/
def sampleB : CpuSample := ⟨300, 0, 0, 200, 0, 0, 0⟩

/-- The ticks of `sampleA`. -/
def ticksA : CpuTicks := ⟨100, 0, 0, 100, 0, 0, 0⟩

/-- The ticks of `sampleB`. -/
def ticksB : CpuTicks := ⟨300, 0, 0, 200, 0, 0, 0⟩

/-- A sample with the counters `2 ^ 63`, `2 ^ 63 + 2`, 0 and 1. -/
def ticksMonoPrev : CpuTicks := ⟨9223372036854775808, 9223372036854775810, 0, 1, 0, 0, 0⟩

/-- The sample `ticksMonoPrev` after 6 more ticks of the second counter. -/
def ticksMonoCur : CpuTicks := ⟨9223372036854775808, 9223372036854775816, 0, 1, 0, 0, 0⟩

theorem roundHalfEven_intCast (z : Int) : roundHalfEven (z : ℚ) = z := by
  simp [roundHalfEven]

theorem roundHalfEven_bounds (t : ℚ) :
    ⌊t⌋ ≤ roundHalfEven t ∧ roundHalfEven t ≤ ⌊t⌋ + 1 := by
  unfold roundHalfEven
  split_ifs <;> omega

theorem roundHalfEven_error (t : ℚ) : |(roundHalfEven t : ℚ) - t| ≤ 1 / 2 := by
  have h1 := Int.floor_le t
  have h2 := Int.lt_floor_add_one t
  unfold roundHalfEven
  split_ifs with ha hb hc
  · rw [abs_le]; constructor <;> linarith
  · push_cast; rw [abs_le]; constructor <;> linarith
  · have : t - ⌊t⌋ = 1 / 2 := le_antisymm (not_lt.mp hb) (not_lt.mp ha)
    rw [abs_le]; constructor <;> linarith
  · have : t - ⌊t⌋ = 1 / 2 := le_antisymm (not_lt.mp hb) (not_lt.mp ha)
    push_cast; rw [abs_le]; constructor <;> linarith

/-- A tie goes to the even neighbour. -/
theorem roundHalfEven_tie (f : Int) :
    roundHalfEven ((f : ℚ) + 1 / 2) = if f % 2 = 0 then f else f + 1 := by
  have hfl : ⌊(f : ℚ) + 1 / 2⌋ = f := by
    rw [Int.floor_eq_iff]; constructor <;> norm_num
  unfold roundHalfEven
  rw [hfl]
  norm_num

theorem log_abs_bounds (x : ℚ) (hx : x ≠ 0) :
    (2 : ℚ) ^ Int.log 2 |x| ≤ |x| ∧ |x| < (2 : ℚ) ^ (Int.log 2 |x| + 1) := by
  have h1 := Int.zpow_log_le_self (b := 2) (by norm_num) (abs_pos.mpr hx)
  have h2 := Int.lt_zpow_succ_log_self (b := 2) (by norm_num) |x|
  simp only [Nat.cast_ofNat] at h1 h2
  exact ⟨h1, h2⟩

/-- The binary exponent of a positive value lying in `[2 ^ e, 2 ^ (e + 1))`. -/
theorem log_eq_of_bounds (q : ℚ) (e : ℤ) (hq : 0 < q) (hlo : (2 : ℚ) ^ e ≤ q)
    (hhi : q < (2 : ℚ) ^ (e + 1)) : Int.log 2 |q| = e := by
  rw [abs_of_pos hq]
  have h1 : e ≤ Int.log 2 q :=
    (Int.zpow_le_iff_le_log (b := 2) (by norm_num) hq).mp (by simpa using hlo)
  have h2 : Int.log 2 q < e + 1 :=
    (Int.lt_zpow_iff_log_lt (b := 2) (by norm_num) hq).mp (by simpa using hhi)
  omega

/-- Rounding a positive value of known binary exponent. -/
theorem roundLongDouble_of_bounds (q : ℚ) (e : ℤ) (hq : 0 < q) (hlo : (2 : ℚ) ^ e ≤ q)
    (hhi : q < (2 : ℚ) ^ (e + 1)) :
    roundLongDouble q = roundHalfEven (q / (2 : ℚ) ^ (e - 63)) * (2 : ℚ) ^ (e - 63) := by
  unfold roundLongDouble
  rw [if_neg hq.ne', log_eq_of_bounds q e hq hlo hhi]

theorem two_pow_64_cast : (2 : ℚ) ^ (64 : ℤ) = (((2 : ℤ) ^ 64 : ℤ) : ℚ) := by norm_num

/-- Scaling a value with a significand below `2 ^ 64` by the unit of its last
place gives an integer. -/
theorem longDouble_scaled_int (m j e : ℤ) (hm : |m| < 2 ^ 64)
    (hlo : (2 : ℚ) ^ e ≤ |(m : ℚ) * (2 : ℚ) ^ j|) :
    ∃ z : ℤ, (m : ℚ) * (2 : ℚ) ^ j / (2 : ℚ) ^ (e - 63) = (z : ℚ) := by
  have h2 : (0 : ℚ) < 2 := by norm_num
  have habs : |(m : ℚ) * (2 : ℚ) ^ j| = ((|m| : ℤ) : ℚ) * (2 : ℚ) ^ j := by
    rw [abs_mul, abs_of_pos (show (0 : ℚ) < 2 ^ j by positivity)]
    push_cast
    rfl
  have hlt : (2 : ℚ) ^ e < (2 : ℚ) ^ (64 + j) := by
    refine lt_of_le_of_lt hlo ?_
    rw [habs, zpow_add₀ h2.ne', two_pow_64_cast]
    exact mul_lt_mul_of_pos_right (by exact_mod_cast hm) (by positivity)
  have he : e < 64 + j := (zpow_lt_zpow_iff_right₀ (by norm_num)).mp hlt
  obtain ⟨n, hn⟩ := Int.eq_ofNat_of_zero_le (show 0 ≤ j - (e - 63) by omega)
  refine ⟨m * 2 ^ n, ?_⟩
  rw [mul_div_assoc, ← zpow_sub₀ h2.ne', hn]
  push_cast
  rw [zpow_natCast]

/-- A value with a significand below `2 ^ 64` is a `long double`: rounding
leaves it unchanged. -/
theorem roundLongDouble_exact (m : ℤ) (j : ℤ) (hm : |m| < 2 ^ 64) :
    roundLongDouble ((m : ℚ) * (2 : ℚ) ^ j) = (m : ℚ) * (2 : ℚ) ^ j := by
  by_cases h0 : (m : ℚ) * (2 : ℚ) ^ j = 0
  · simp [roundLongDouble, h0]
  obtain ⟨z, hz⟩ := longDouble_scaled_int m j _ hm (log_abs_bounds _ h0).1
  unfold roundLongDouble
  rw [if_neg h0, hz, roundHalfEven_intCast, ← hz]
  exact div_mul_cancel₀ _ (by positivity)

/-- Integers of magnitude at most `2 ^ 64` are `long double` values. -/
theorem roundLongDouble_int (z : ℤ) (hz : |z| ≤ 2 ^ 64) : roundLongDouble (z : ℚ) = z := by
  rcases lt_or_eq_of_le hz with h | h
  · have := roundLongDouble_exact z 0 h
    simpa using this
  · have hcases : z = 2 ^ 64 ∨ z = -2 ^ 64 := by
      rcases abs_cases z with ⟨h1, -⟩ | ⟨h1, -⟩
      · left; omega
      · right; omega
    rcases hcases with rfl | rfl
    · have := roundLongDouble_exact 1 64 (by norm_num)
      norm_num at this ⊢
      exact this
    · have := roundLongDouble_exact (-1) 64 (by norm_num)
      norm_num at this ⊢
      exact this

/-- Rounding moves a value by at most half a unit of its last place. -/
theorem roundLongDouble_error (x : ℚ) (hx : x ≠ 0) :
    |roundLongDouble x - x| ≤ (2 : ℚ) ^ (Int.log 2 |x| - 64) := by
  have hu : (0 : ℚ) < (2 : ℚ) ^ (Int.log 2 |x| - 63) := by positivity
  have herr := roundHalfEven_error (x / (2 : ℚ) ^ (Int.log 2 |x| - 63))
  have hsplit : (2 : ℚ) ^ (Int.log 2 |x| - 64) = 1 / 2 * (2 : ℚ) ^ (Int.log 2 |x| - 63) := by
    rw [show Int.log 2 |x| - 63 = (Int.log 2 |x| - 64) + 1 by ring,
      zpow_add_one₀ (by norm_num : (2 : ℚ) ≠ 0)]
    ring
  have hfac : roundLongDouble x - x =
      ((roundHalfEven (x / (2 : ℚ) ^ (Int.log 2 |x| - 63)) : ℚ) -
        x / (2 : ℚ) ^ (Int.log 2 |x| - 63)) * (2 : ℚ) ^ (Int.log 2 |x| - 63) := by
    unfold roundLongDouble
    rw [if_neg hx, sub_mul, div_mul_cancel₀ x hu.ne']
  rw [hfac, abs_mul, abs_of_pos hu, hsplit]
  exact mul_le_mul_of_nonneg_right herr hu.le

/-- Below `2 ^ 32` in magnitude the rounding error is at most `2 ^ (-33)`. -/
theorem roundLongDouble_error_small (x : ℚ) (hx : |x| < 2 ^ 32) :
    |roundLongDouble x - x| ≤ 1 / 2 ^ 33 := by
  by_cases h0 : x = 0
  · simp [roundLongDouble, h0]
  refine le_trans (roundLongDouble_error x h0) ?_
  have hpow : ((2 : ℕ) : ℚ) ^ (32 : ℤ) = 2 ^ 32 := by norm_num
  have hlog : Int.log 2 |x| < 32 :=
    (Int.lt_zpow_iff_log_lt (b := 2) (by norm_num) (abs_pos.mpr h0)).mp (by rw [hpow]; exact hx)
  have : (2 : ℚ) ^ (Int.log 2 |x| - 64) ≤ (2 : ℚ) ^ (-33 : ℤ) :=
    zpow_le_zpow_right₀ (by norm_num) (by omega)
  refine le_trans this ?_
  norm_num

/-- Rounding a quotient with a denominator below `2 ^ 32` and a magnitude
below `2 ^ 32` does not change its truncation toward zero. -/
theorem truncToInt_roundLongDouble_div (p s : ℤ) (hs0 : 0 < s) (hs : s < 2 ^ 32)
    (hx : |(p : ℚ) / (s : ℚ)| < 2 ^ 32) :
    truncToInt (roundLongDouble ((p : ℚ) / (s : ℚ))) = truncToInt ((p : ℚ) / (s : ℚ)) := by
  have hsq : (0 : ℚ) < (s : ℚ) := by exact_mod_cast hs0
  have herr := roundLongDouble_error_small _ hx
  rw [abs_le] at herr
  obtain ⟨he1, he2⟩ := herr
  have hfl := Int.floor_le ((p : ℚ) / (s : ℚ))
  have hfl2 := Int.lt_floor_add_one ((p : ℚ) / (s : ℚ))
  by_cases hint : ((⌊(p : ℚ) / (s : ℚ)⌋ : ℤ) : ℚ) = (p : ℚ) / (s : ℚ)
  · -- the quotient is an integer, hence a `long double`
    have hz : |⌊(p : ℚ) / (s : ℚ)⌋| ≤ 2 ^ 64 := by
      have h1 : |((⌊(p : ℚ) / (s : ℚ)⌋ : ℤ) : ℚ)| < 2 ^ 32 := by rw [hint]; exact hx
      have h2 : ((|⌊(p : ℚ) / (s : ℚ)⌋| : ℤ) : ℚ) < ((2 ^ 32 : ℤ) : ℚ) := by
        push_cast; exact h1
      have h3 : |⌊(p : ℚ) / (s : ℚ)⌋| < 2 ^ 32 := by exact_mod_cast h2
      have : (2 : ℤ) ^ 32 ≤ 2 ^ 64 := by norm_num
      omega
    rw [← hint, roundLongDouble_int _ hz]
  · -- the quotient is at least `1 / s` away from every integer
    have hlt : ((⌊(p : ℚ) / (s : ℚ)⌋ : ℤ) : ℚ) < (p : ℚ) / (s : ℚ) := lt_of_le_of_ne hfl hint
    have hsmall : (1 : ℚ) / 2 ^ 33 < 1 / (s : ℚ) := by
      apply one_div_lt_one_div_of_lt hsq
      have : ((s : ℤ) : ℚ) < ((2 ^ 32 : ℤ) : ℚ) := by exact_mod_cast hs
      have h3 : (((2 : ℤ) ^ 32 : ℤ) : ℚ) < 2 ^ 33 := by norm_num
      linarith
    have hlo : ((⌊(p : ℚ) / (s : ℚ)⌋ : ℤ) : ℚ) + 1 / (s : ℚ) ≤ (p : ℚ) / (s : ℚ) := by
      have h1 : ⌊(p : ℚ) / (s : ℚ)⌋ * s < p := by
        have : ((⌊(p : ℚ) / (s : ℚ)⌋ * s : ℤ) : ℚ) < (p : ℚ) := by
          push_cast
          exact (lt_div_iff₀ hsq).mp hlt
        exact_mod_cast this
      have h2 : ⌊(p : ℚ) / (s : ℚ)⌋ * s + 1 ≤ p := by omega
      have h3 : ((⌊(p : ℚ) / (s : ℚ)⌋ * s + 1 : ℤ) : ℚ) ≤ (p : ℚ) := by exact_mod_cast h2
      rw [le_div_iff₀ hsq, add_mul, one_div, inv_mul_cancel₀ hsq.ne']
      push_cast at h3
      exact h3
    have hhi : (p : ℚ) / (s : ℚ) + 1 / (s : ℚ) ≤ ((⌊(p : ℚ) / (s : ℚ)⌋ : ℤ) : ℚ) + 1 := by
      have h1 : p < (⌊(p : ℚ) / (s : ℚ)⌋ + 1) * s := by
        have : (p : ℚ) < (((⌊(p : ℚ) / (s : ℚ)⌋ + 1) * s : ℤ) : ℚ) := by
          push_cast
          exact (div_lt_iff₀ hsq).mp hfl2
        exact_mod_cast this
      have h2 : p + 1 ≤ (⌊(p : ℚ) / (s : ℚ)⌋ + 1) * s := by omega
      have h3 : ((p + 1 : ℤ) : ℚ) ≤ (((⌊(p : ℚ) / (s : ℚ)⌋ + 1) * s : ℤ) : ℚ) := by
        exact_mod_cast h2
      push_cast at h3
      rw [← add_div, div_le_iff₀ hsq]
      exact h3
    have hy1 : ((⌊(p : ℚ) / (s : ℚ)⌋ : ℤ) : ℚ) < roundLongDouble ((p : ℚ) / (s : ℚ)) := by
      linarith
    have hy2 : roundLongDouble ((p : ℚ) / (s : ℚ)) < ((⌊(p : ℚ) / (s : ℚ)⌋ : ℤ) : ℚ) + 1 := by
      linarith
    have hfy : ⌊roundLongDouble ((p : ℚ) / (s : ℚ))⌋ = ⌊(p : ℚ) / (s : ℚ)⌋ := by
      rw [Int.floor_eq_iff]
      exact ⟨hy1.le, hy2⟩
    have hcy : ⌈roundLongDouble ((p : ℚ) / (s : ℚ))⌉ = ⌊(p : ℚ) / (s : ℚ)⌋ + 1 := by
      rw [Int.ceil_eq_iff]
      push_cast
      constructor
      · linarith
      · exact hy2.le
    have hcx : ⌈(p : ℚ) / (s : ℚ)⌉ = ⌊(p : ℚ) / (s : ℚ)⌋ + 1 := by
      rw [Int.ceil_eq_iff]
      push_cast
      constructor
      · linarith
      · exact hfl2.le
    unfold truncToInt
    by_cases hpos : (0 : ℚ) ≤ (p : ℚ) / (s : ℚ)
    · have hf0 : (0 : ℤ) ≤ ⌊(p : ℚ) / (s : ℚ)⌋ := Int.floor_nonneg.mpr hpos
      have hy0 : (0 : ℚ) ≤ roundLongDouble ((p : ℚ) / (s : ℚ)) := by
        have : (0 : ℚ) ≤ ((⌊(p : ℚ) / (s : ℚ)⌋ : ℤ) : ℚ) := by exact_mod_cast hf0
        linarith
      rw [if_pos hpos, if_pos hy0, hfy]
    · have hneg : (p : ℚ) / (s : ℚ) < 0 := not_le.mp hpos
      have hf1 : ⌊(p : ℚ) / (s : ℚ)⌋ + 1 ≤ 0 := by
        have : ⌊(p : ℚ) / (s : ℚ)⌋ < 0 := Int.floor_lt.mpr (by simpa using hneg)
        omega
      have hy0 : ¬ (0 : ℚ) ≤ roundLongDouble ((p : ℚ) / (s : ℚ)) := by
        have : ((⌊(p : ℚ) / (s : ℚ)⌋ : ℤ) : ℚ) + 1 ≤ 0 := by exact_mod_cast hf1
        linarith
      rw [if_neg hpos, if_neg hy0, hcy, hcx]

/-- The rounding error is at most `2 ^ (-64)` of the value. -/
theorem roundLongDouble_rel (x : ℚ) : |roundLongDouble x - x| ≤ |x| / 2 ^ 64 := by
  by_cases h0 : x = 0
  · simp [roundLongDouble, h0]
  refine le_trans (roundLongDouble_error x h0) ?_
  rw [zpow_sub₀ (by norm_num : (2 : ℚ) ≠ 0)]
  have h64 : (2 : ℚ) ^ (64 : ℤ) = 2 ^ 64 := by norm_num
  rw [h64]
  exact div_le_div_of_nonneg_right (log_abs_bounds x h0).1 (by positivity)

theorem addLD_nat (n m : ℕ) (h : n + m ≤ 2 ^ 64) :
    addLD (n : ℚ) (m : ℚ) = ((n + m : ℕ) : ℚ) := by
  have hz : |((n + m : ℕ) : ℤ)| ≤ 2 ^ 64 := by
    rw [abs_of_nonneg (by positivity)]
    exact_mod_cast h
  have := roundLongDouble_int ((n + m : ℕ) : ℤ) hz
  unfold addLD
  push_cast at this ⊢
  exact this

theorem subLD_nat (n m : ℕ) (hn : n ≤ 2 ^ 64) (hm : m ≤ 2 ^ 64) :
    subLD (n : ℚ) (m : ℚ) = (((n : ℤ) - (m : ℤ) : ℤ) : ℚ) := by
  have hz : |(n : ℤ) - (m : ℤ)| ≤ 2 ^ 64 := by
    have h1 : (n : ℤ) ≤ 2 ^ 64 := by exact_mod_cast hn
    have h2 : (m : ℤ) ≤ 2 ^ 64 := by exact_mod_cast hm
    rw [abs_le]
    constructor <;> omega
  have := roundLongDouble_int ((n : ℤ) - (m : ℤ)) hz
  unfold subLD
  push_cast at this ⊢
  exact this

/-- With a total of at most `2 ^ 64` every partial sum of the seven counters
is exact. -/
theorem sumLD_ticks (t : CpuTicks) (h : t.total ≤ 2 ^ 64) :
    t.toSample.sumLD = (t.total : ℚ) := by
  simp only [CpuTicks.total] at h
  simp only [CpuSample.sumLD, CpuTicks.toSample, CpuTicks.total]
  rw [addLD_nat _ _ (by omega), addLD_nat _ _ (by omega), addLD_nat _ _ (by omega),
    addLD_nat _ _ (by omega), addLD_nat _ _ (by omega), addLD_nat _ _ (by omega)]

theorem activeLD_ticks (t : CpuTicks) (h : t.total ≤ 2 ^ 64) :
    t.toSample.activeLD = (t.active : ℚ) := by
  simp only [CpuTicks.total] at h
  simp only [CpuSample.activeLD, CpuTicks.toSample, CpuTicks.active]
  rw [addLD_nat _ _ (by omega), addLD_nat _ _ (by omega), addLD_nat _ _ (by omega),
    addLD_nat _ _ (by omega)]

theorem total_ticks (t : CpuTicks) : t.toSample.total = (t.total : ℚ) := by
  simp only [CpuSample.total, CpuTicks.toSample, CpuTicks.total]
  push_cast
  rfl

theorem active_ticks (t : CpuTicks) : t.toSample.active = (t.active : ℚ) := by
  simp only [CpuSample.active, CpuTicks.toSample, CpuTicks.active]
  push_cast
  rfl

/-! ## Properties of the CPU utilization helper -/

theorem truncToInt_of_nonneg {q : ℚ} (h : 0 ≤ q) : truncToInt q = ⌊q⌋ := by
  simp [truncToInt, h]

theorem truncToInt_of_neg {q : ℚ} (h : q < 0) : truncToInt q = ⌈q⌉ := by
  simp [truncToInt, not_le.mpr h]

/-- `truncToInt` rounds toward zero: it is the integer next to `q` on the side
of zero. -/
theorem truncToInt_toward_zero (q : ℚ) :
    (0 ≤ q → (truncToInt q : ℚ) ≤ q ∧ q < truncToInt q + 1) ∧
    (q ≤ 0 → q ≤ (truncToInt q : ℚ) ∧ (truncToInt q : ℚ) - 1 < q) := by
  constructor
  · intro h
    rw [truncToInt_of_nonneg h]
    exact ⟨Int.floor_le q, Int.lt_floor_add_one q⟩
  · intro h
    rcases eq_or_lt_of_le h with h0 | hneg
    · subst h0
      norm_num [truncToInt]
    · rw [truncToInt_of_neg hneg]
      refine ⟨Int.le_ceil q, ?_⟩
      have := Int.ceil_lt_add_one q
      linarith

theorem truncToInt_intCast (z : Int) : truncToInt (z : ℚ) = z := by
  unfold truncToInt
  split_ifs <;> simp

theorem pscanfRet_toList (s : CpuSample) : pscanfRet 7 (some s.toList) = 7 := rfl

theorem pscanfStore7_toList (a s : CpuSample) : pscanfStore7 a (some s.toList) = s := rfl

/-- The result of a call whose read converted all seven fields, with the two
rounded sums written as `sumLD` and `activeLD`. -/
theorem cpu_perc_of_full_read (prev cur : CpuSample) :
    widgets_helper_cpu_perc_num prev (some cur.toList) =
      (if prev.c0 = 0 then .ok 0
       else if subLD prev.sumLD cur.sumLD = 0 then .ok 0
       else castInt (divLD (mulLD 100 (subLD prev.activeLD cur.activeLD))
         (subLD prev.sumLD cur.sumLD)), cur) := by
  simp only [widgets_helper_cpu_perc_num, pscanfRet_toList, pscanfStore7_toList,
    CpuSample.sumLD, CpuSample.activeLD, ne_eq, not_true_eq_false, if_false]
  split_ifs <;> rfl

/-- The result of a call on whole ticks with totals of at most `2 ^ 64`: the
sums and differences are exact, the product and the quotient are rounded. -/
theorem cpu_perc_of_ticks (p c : CpuTicks) (hp : p.total ≤ 2 ^ 64) (hc : c.total ≤ 2 ^ 64) :
    widgets_helper_cpu_perc_num p.toSample (some c.toSample.toList) =
      (if p.t0 = 0 then .ok 0
       else if p.total = c.total then .ok 0
       else castInt (divLD (mulLD 100 ((((p.active : ℤ) - (c.active : ℤ) : ℤ)) : ℚ))
         ((((p.total : ℤ) - (c.total : ℤ) : ℤ)) : ℚ)), c.toSample) := by
  have hpa : p.active ≤ 2 ^ 64 := by
    simp only [CpuTicks.total] at hp; simp only [CpuTicks.active]; omega
  have hca : c.active ≤ 2 ^ 64 := by
    simp only [CpuTicks.total] at hc; simp only [CpuTicks.active]; omega
  rw [cpu_perc_of_full_read, sumLD_ticks p hp, sumLD_ticks c hc, activeLD_ticks p hp,
    activeLD_ticks c hc, subLD_nat _ _ hp hc, subLD_nat _ _ hpa hca]
  have h0 : (p.toSample.c0 = 0) ↔ p.t0 = 0 := by
    simp [CpuTicks.toSample]
  have h1 : ((((p.total : ℤ) - (c.total : ℤ) : ℤ)) : ℚ) = 0 ↔ p.total = c.total := by
    constructor
    · intro h
      have : (p.total : ℤ) - (c.total : ℤ) = 0 := by exact_mod_cast h
      omega
    · intro h
      rw [h]; simp
  by_cases ha : p.t0 = 0
  · rw [if_pos (h0.mpr ha), if_pos ha]
  · rw [if_neg (fun h => ha (h0.mp h)), if_neg ha]
    by_cases hb : p.total = c.total
    · rw [if_pos (h1.mpr hb), if_pos hb]
    · rw [if_neg (fun h => hb (h1.mp h)), if_neg hb]

/-- The integers near `2 ^ 64` met in the examples, rounded to `long double`
values: `2 ^ 64 + 1` and `2 ^ 64 + 3` lie half-way between two neighbours. -/
theorem roundLongDouble_examples :
    roundLongDouble 18446744073709551615 = 18446744073709551615 ∧
    roundLongDouble 18446744073709551616 = 18446744073709551616 ∧
    roundLongDouble 18446744073709551617 = 18446744073709551616 ∧
    roundLongDouble 18446744073709551618 = 18446744073709551618 ∧
    roundLongDouble 18446744073709551619 = 18446744073709551620 ∧
    roundLongDouble 18446744073709551620 = 18446744073709551620 ∧
    roundLongDouble 18446744073709551624 = 18446744073709551624 ∧
    roundLongDouble 18446744073709551625 = 18446744073709551624 := by
  have hlo : ∀ q : ℚ, 18446744073709551616 ≤ q → (2 : ℚ) ^ (64 : ℤ) ≤ q := by
    intro q h; norm_num; exact h
  have hhi : ∀ q : ℚ, q < 36893488147419103232 → q < (2 : ℚ) ^ ((64 : ℤ) + 1) := by
    intro q h; norm_num; exact h
  have hu : (2 : ℚ) ^ ((64 : ℤ) - 63) = 2 := by norm_num
  have tie : ∀ (q : ℚ) (f : ℤ), 18446744073709551616 ≤ q → q < 36893488147419103232 →
      q / 2 = (f : ℚ) + 1 / 2 →
      roundLongDouble q = ((if f % 2 = 0 then f else f + 1 : ℤ) : ℚ) * 2 := by
    intro q f h1 h2 hq
    rw [roundLongDouble_of_bounds q 64 (by linarith) (hlo q h1) (hhi q h2), hu, hq,
      roundHalfEven_tie]
  have even : ∀ (q : ℚ) (f : ℤ), 18446744073709551616 ≤ q → q < 36893488147419103232 →
      q / 2 = (f : ℚ) → roundLongDouble q = (f : ℚ) * 2 := by
    intro q f h1 h2 hq
    rw [roundLongDouble_of_bounds q 64 (by linarith) (hlo q h1) (hhi q h2), hu, hq,
      roundHalfEven_intCast]
  refine ⟨?_, ?_, ?_, ?_, ?_, ?_, ?_, ?_⟩
  · exact_mod_cast roundLongDouble_int 18446744073709551615 (by norm_num)
  · exact_mod_cast roundLongDouble_int 18446744073709551616 (by norm_num)
  · rw [tie 18446744073709551617 9223372036854775808 (by norm_num) (by norm_num)
      (by norm_num)]
    norm_num
  · rw [even 18446744073709551618 9223372036854775809 (by norm_num) (by norm_num)
      (by norm_num)]
    norm_num
  · rw [tie 18446744073709551619 9223372036854775809 (by norm_num) (by norm_num)
      (by norm_num)]
    norm_num
  · rw [even 18446744073709551620 9223372036854775810 (by norm_num) (by norm_num)
      (by norm_num)]
    norm_num
  · rw [even 18446744073709551624 9223372036854775812 (by norm_num) (by norm_num)
      (by norm_num)]
    norm_num
  · rw [tie 18446744073709551625 9223372036854775812 (by norm_num) (by norm_num)
      (by norm_num)]
    norm_num

/-- Small integers are `long double` values. -/
theorem roundLongDouble_small :
    roundLongDouble (-1) = -1 ∧ roundLongDouble (-2) = -2 ∧ roundLongDouble (-4) = -4 ∧
    roundLongDouble (-6) = -6 ∧ roundLongDouble (-100) = -100 ∧
    roundLongDouble (-200) = -200 ∧ roundLongDouble (-600) = -600 ∧
    roundLongDouble 100 = 100 ∧ roundLongDouble 150 = 150 := by
  refine ⟨?_, ?_, ?_, ?_, ?_, ?_, ?_, ?_, ?_⟩
  · exact_mod_cast roundLongDouble_int (-1) (by norm_num)
  · exact_mod_cast roundLongDouble_int (-2) (by norm_num)
  · exact_mod_cast roundLongDouble_int (-4) (by norm_num)
  · exact_mod_cast roundLongDouble_int (-6) (by norm_num)
  · exact_mod_cast roundLongDouble_int (-100) (by norm_num)
  · exact_mod_cast roundLongDouble_int (-200) (by norm_num)
  · exact_mod_cast roundLongDouble_int (-600) (by norm_num)
  · exact_mod_cast roundLongDouble_int 100 (by norm_num)
  · exact_mod_cast roundLongDouble_int 150 (by norm_num)

theorem castInt_150 : castInt 150 = .ok 150 := by
  have t : truncToInt (150 : ℚ) = 150 := by exact_mod_cast truncToInt_intCast 150
  have r : inIntRange 150 := by decide
  simp [castInt, t, r]

/-- The call on `ticksMonoPrev` then `ticksMonoCur` returns 150. -/
theorem cpu_perc_mono :
    (widgets_helper_cpu_perc_num ticksMonoPrev.toSample
      (some ticksMonoCur.toSample.toList)).1 = .ok 150 := by
  obtain ⟨-, -, -, r4, r5, r6, r7, r8⟩ := roundLongDouble_examples
  obtain ⟨-, -, s3, s4, -, -, s7, -, s9⟩ := roundLongDouble_small
  rw [cpu_perc_of_full_read]
  norm_num [ticksMonoPrev, ticksMonoCur, CpuTicks.toSample, CpuSample.sumLD,
    CpuSample.activeLD, addLD, subLD, mulLD, divLD, r4, r5, r6, r7, r8, s3, s4, s7, s9,
    castInt_150]

/-- On whole ticks with totals below `2 ^ 57` and a total delta in
`(0, 2 ^ 32)`, the call returns the conversion to `int` of a value that
truncates like the exact quotient, whenever that quotient is below `2 ^ 32`
in magnitude. -/
theorem cpu_perc_ticks_exact (p c : CpuTicks) (h0 : p.t0 ≠ 0) (hp : p.total < 2 ^ 57)
    (hc : c.total < 2 ^ 57) (hs : p.total < c.total) (hd : c.total - p.total < 2 ^ 32)
    (hq : |100 * (c.toSample.active - p.toSample.active) /
      (c.toSample.total - p.toSample.total)| < 2 ^ 32) :
    ∃ y : ℚ, (widgets_helper_cpu_perc_num p.toSample (some c.toSample.toList)).1 = castInt y ∧
      truncToInt y = truncToInt (100 * (c.toSample.active - p.toSample.active) /
        (c.toSample.total - p.toSample.total)) := by
  have hpa : p.active ≤ p.total := by
    simp only [CpuTicks.total, CpuTicks.active]; omega
  have hca : c.active ≤ c.total := by
    simp only [CpuTicks.total, CpuTicks.active]; omega
  have hmul : mulLD 100 ((((p.active : ℤ) - (c.active : ℤ) : ℤ)) : ℚ) =
      (((100 * ((p.active : ℤ) - (c.active : ℤ)) : ℤ)) : ℚ) := by
    have hz : |100 * ((p.active : ℤ) - (c.active : ℤ))| ≤ 2 ^ 64 := by
      rw [abs_le]
      constructor <;> omega
    have := roundLongDouble_int _ hz
    unfold mulLD
    push_cast at this ⊢
    exact this
  have hquot : (((100 * ((p.active : ℤ) - (c.active : ℤ)) : ℤ)) : ℚ) /
      ((((p.total : ℤ) - (c.total : ℤ) : ℤ)) : ℚ) =
      (((100 * ((c.active : ℤ) - (p.active : ℤ)) : ℤ)) : ℚ) /
      ((((c.total : ℤ) - (p.total : ℤ) : ℤ)) : ℚ) := by
    rw [← neg_div_neg_eq]
    push_cast
    ring_nf
  have hform : 100 * (c.toSample.active - p.toSample.active) /
      (c.toSample.total - p.toSample.total) =
      (((100 * ((c.active : ℤ) - (p.active : ℤ)) : ℤ)) : ℚ) /
      ((((c.total : ℤ) - (p.total : ℤ) : ℤ)) : ℚ) := by
    rw [active_ticks, active_ticks, total_ticks, total_ticks]
    push_cast
    rfl
  refine ⟨roundLongDouble ((((100 * ((c.active : ℤ) - (p.active : ℤ)) : ℤ)) : ℚ) /
      ((((c.total : ℤ) - (p.total : ℤ) : ℤ)) : ℚ)), ?_, ?_⟩
  · rw [cpu_perc_of_ticks p c (by omega) (by omega), if_neg h0, if_neg (by omega), hmul]
    unfold divLD
    rw [hquot]
  · rw [hform] at hq ⊢
    exact truncToInt_roundLongDouble_div _ _ (by omega) (by omega) hq

/-- A value whose truncation fits an `int` is below `2 ^ 32` in magnitude. -/
theorem abs_lt_of_inIntRange (q : ℚ) (h : inIntRange (truncToInt q)) : |q| < 2 ^ 32 := by
  obtain ⟨h1, h2⟩ := h
  simp only [INT_MIN, INT_MAX] at h1 h2
  have hc1 : ((-2147483648 : ℤ) : ℚ) ≤ (truncToInt q : ℚ) := by exact_mod_cast h1
  have hc2 : (truncToInt q : ℚ) ≤ ((2147483647 : ℤ) : ℚ) := by exact_mod_cast h2
  push_cast at hc1 hc2
  rw [abs_lt]
  rcases le_total 0 q with hq | hq
  · have := ((truncToInt_toward_zero q).1 hq).2
    constructor <;> linarith
  · have := ((truncToInt_toward_zero q).2 hq).2
    constructor <;> linarith

/-- Rounded product and quotient of a part by the whole: for `0 ≤ d ≤ s` and
`0 < s` the value the code converts lies in `[0, 101)`. -/
theorem cpu_quotient_bounds (d s : ℚ) (hd0 : 0 ≤ d) (hds : d ≤ s) (hs : 0 < s) :
    0 ≤ divLD (mulLD 100 (-d)) (-s) ∧ divLD (mulLD 100 (-d)) (-s) < 101 := by
  have hrel1 := roundLongDouble_rel (100 * -d)
  have habs1 : |100 * -d| = 100 * d := by
    rw [mul_neg, abs_neg, abs_of_nonneg (by positivity)]
  rw [habs1, abs_le] at hrel1
  obtain ⟨h1a, h1b⟩ := hrel1
  have hm0 : 0 ≤ -mulLD 100 (-d) := by
    unfold mulLD
    have : 100 * d / 2 ^ 64 ≤ 100 * d := div_le_self (by positivity) (by norm_num)
    linarith
  have hm1 : -mulLD 100 (-d) ≤ 100 * d + 100 * d / 2 ^ 64 := by
    unfold mulLD
    linarith
  have hy : mulLD 100 (-d) / -s = -mulLD 100 (-d) / s := by
    rw [div_neg, neg_div]
  have hy0 : 0 ≤ mulLD 100 (-d) / -s := by
    rw [hy]; exact div_nonneg hm0 hs.le
  have hy1 : mulLD 100 (-d) / -s ≤ 100 + 100 / 2 ^ 64 := by
    rw [hy, div_le_iff₀ hs]
    have : 100 * d + 100 * d / 2 ^ 64 ≤ (100 + 100 / 2 ^ 64) * s := by
      have h := mul_le_mul_of_nonneg_left hds (show (0 : ℚ) ≤ 100 + 100 / 2 ^ 64 by positivity)
      have e1 : (100 + 100 / 2 ^ 64) * d = 100 * d + 100 * d / 2 ^ 64 := by ring
      linarith
    linarith
  have hrel2 := roundLongDouble_rel (mulLD 100 (-d) / -s)
  rw [abs_of_nonneg hy0, abs_le] at hrel2
  obtain ⟨h2a, h2b⟩ := hrel2
  have hsmall : mulLD 100 (-d) / -s / 2 ^ 64 ≤ mulLD 100 (-d) / -s :=
    div_le_self hy0 (by norm_num)
  have hsmall2 : mulLD 100 (-d) / -s / 2 ^ 64 ≤ (100 + 100 / 2 ^ 64) / 2 ^ 64 :=
    div_le_div_of_nonneg_right hy1 (by positivity)
  constructor
  · unfold divLD
    linarith
  · unfold divLD
    have : (100 + 100 / 2 ^ 64 : ℚ) + (100 + 100 / 2 ^ 64) / 2 ^ 64 < 101 := by norm_num
    linarith

/-- C2, as stated, fails: every counter of `ticksMonoCur` is at least the same
counter of `ticksMonoPrev`, `prev[0] = 2 ^ 63` is not zero and the total delta
is 6, yet the call returns 150. The `long double` sums of the two samples
round to `2 ^ 64 + 4` and `2 ^ 64 + 8`, a total delta of 4 for an active delta
of 6. -/
theorem cpu_perc_range_counterexample :
    ticksMonoPrev.toSample.Le ticksMonoCur.toSample ∧
    ticksMonoPrev.toSample.c0 ≠ 0 ∧
    ticksMonoCur.toSample.total - ticksMonoPrev.toSample.total = 6 ∧
    (widgets_helper_cpu_perc_num ticksMonoPrev.toSample
      (some ticksMonoCur.toSample.toList)).1 = .ok 150 ∧
    ¬ ((150 : Int) ≤ 100) := by
  refine ⟨?_, ?_, ?_, cpu_perc_mono, by decide⟩
  · norm_num [CpuSample.Le, ticksMonoPrev, ticksMonoCur, CpuTicks.toSample]
  · norm_num [ticksMonoPrev, CpuTicks.toSample]
  · norm_num [ticksMonoPrev, ticksMonoCur, CpuTicks.toSample, CpuSample.total]

/-- C2 (amended): for samples of whole, non-negative ticks with
`sum(cur) <= 2 ^ 64`, in which every counter of `cur` is at least the same
counter of `prev`, `prev[0] != 0` and the total delta is positive, the call
returns a defined value that lies in the closed range `[0, 100]`. -/
theorem cpu_perc_range (p c : CpuTicks) (hle : p.Le c) (h0 : p.t0 ≠ 0)
    (hc : c.total ≤ 2 ^ 64) (hs : p.total < c.total) :
    ∃ r : Int, (widgets_helper_cpu_perc_num p.toSample (some c.toSample.toList)).1 = .ok r ∧
      0 ≤ r ∧ r ≤ 100 := by
  obtain ⟨l0, l1, l2, l3, l4, l5, l6⟩ := hle
  have hda : p.active ≤ c.active := by
    simp only [CpuTicks.active]; omega
  have hds : c.active - p.active ≤ c.total - p.total := by
    simp only [CpuTicks.active, CpuTicks.total]; omega
  have e1 : ((((p.active : ℤ) - (c.active : ℤ) : ℤ)) : ℚ) =
      -(((c.active - p.active : ℕ)) : ℚ) := by
    rw [Nat.cast_sub hda]; push_cast; ring
  have e2 : ((((p.total : ℤ) - (c.total : ℤ) : ℤ)) : ℚ) =
      -(((c.total - p.total : ℕ)) : ℚ) := by
    rw [Nat.cast_sub hs.le]; push_cast; ring
  have hb := cpu_quotient_bounds ((c.active - p.active : ℕ) : ℚ) ((c.total - p.total : ℕ) : ℚ)
    (by positivity) (by exact_mod_cast hds) (by exact_mod_cast Nat.sub_pos_of_lt hs)
  obtain ⟨hb0, hb1⟩ := hb
  have hlo : 0 ≤ truncToInt (divLD (mulLD 100 (-(((c.active - p.active : ℕ)) : ℚ)))
      (-(((c.total - p.total : ℕ)) : ℚ))) := by
    rw [truncToInt_of_nonneg hb0]; exact Int.floor_nonneg.mpr hb0
  have hhi : truncToInt (divLD (mulLD 100 (-(((c.active - p.active : ℕ)) : ℚ)))
      (-(((c.total - p.total : ℕ)) : ℚ))) ≤ 100 := by
    rw [truncToInt_of_nonneg hb0]
    have : ⌊divLD (mulLD 100 (-(((c.active - p.active : ℕ)) : ℚ)))
        (-(((c.total - p.total : ℕ)) : ℚ))⌋ < 101 := by
      rw [Int.floor_lt]; exact_mod_cast hb1
    omega
  have hr : inIntRange (truncToInt (divLD (mulLD 100 (-(((c.active - p.active : ℕ)) : ℚ)))
      (-(((c.total - p.total : ℕ)) : ℚ)))) := by
    constructor
    · exact le_trans (by decide) hlo
    · exact le_trans hhi (by decide)
  refine ⟨_, ?_, hlo, hhi⟩
  rw [cpu_perc_of_ticks p c (by omega) hc, if_neg h0, if_neg (by omega), e1, e2]
  simp only [castInt, if_pos hr]

/-- Witness for `cpu_perc_range`: `ticksB` dominates `ticksA`. -/
theorem cpu_perc_range_witness :
    ∃ r : Int, (widgets_helper_cpu_perc_num ticksA.toSample (some ticksB.toSample.toList)).1 =
      .ok r ∧ 0 ≤ r ∧ r ≤ 100 :=
  cpu_perc_range ticksA ticksB (by decide) (by decide) (by decide) (by decide)

/-- C4: after a call that reads the seven fields `cur`, the persisted sample is
`cur`, for every previous sample (so in each of the three branches), and what
the next call returns and persists does not depend on the sample that was
persisted before. -/
theorem cpu_perc_persists_cur (prev cur : CpuSample) :
    (widgets_helper_cpu_perc_num prev (some cur.toList)).2 = cur ∧
    ∀ (prev2 : CpuSample) (next : ScanOutcome ℚ),
      widgets_helper_cpu_perc_num (widgets_helper_cpu_perc_num prev (some cur.toList)).2 next =
        widgets_helper_cpu_perc_num
          (widgets_helper_cpu_perc_num prev2 (some cur.toList)).2 next := by
  have h : ∀ p : CpuSample, (widgets_helper_cpu_perc_num p (some cur.toList)).2 = cur := by
    intro p
    rw [cpu_perc_of_full_read]
  refine ⟨h prev, ?_⟩
  intro prev2 next
  rw [h prev, h prev2]

/-- The call on two samples of small whole ticks. -/
theorem cpu_perc_small (p c : CpuTicks) (r : Int) (h0 : p.t0 ≠ 0) (hp : p.total < 2 ^ 57)
    (hc : c.total < 2 ^ 57) (hs : p.total < c.total) (hd : c.total - p.total < 2 ^ 32)
    (hr : inIntRange r)
    (ht : truncToInt (100 * (c.toSample.active - p.toSample.active) /
      (c.toSample.total - p.toSample.total)) = r) :
    (widgets_helper_cpu_perc_num p.toSample (some c.toSample.toList)).1 = .ok r := by
  have hr2 : inIntRange (truncToInt (100 * (c.toSample.active - p.toSample.active) /
      (c.toSample.total - p.toSample.total))) := by rw [ht]; exact hr
  obtain ⟨y, hy, hty⟩ := cpu_perc_ticks_exact p c h0 hp hc hs hd (abs_lt_of_inIntRange _ hr2)
  rw [hy]
  unfold castInt
  rw [hty, if_pos hr2, ht]

/-- C5 (the code at the failing input): with `sampleA` persisted, a scan that
stops after one field (value 200) makes the call return 0 and leaves
`(200, 0, 0, 100, 0, 0, 0)` persisted, which is not `sampleA`; the following
call, reading `sampleB`, then returns 50, while its delta against the last
sample that was read in full, `sampleA`, is 66. -/
theorem cpu_perc_short_scan_overwrites :
    widgets_helper_cpu_perc_num sampleA (some [200]) = (.ok 0, ⟨200, 0, 0, 100, 0, 0, 0⟩) ∧
    (widgets_helper_cpu_perc_num sampleA (some [200])).2 ≠ sampleA ∧
    (widgets_helper_cpu_perc_num (widgets_helper_cpu_perc_num sampleA (some [200])).2
      (some sampleB.toList)).1 = .ok 50 ∧
    (widgets_helper_cpu_perc_num sampleA (some sampleB.toList)).1 = .ok 66 := by
  have e : widgets_helper_cpu_perc_num sampleA (some [200]) =
      (.ok 0, ⟨200, 0, 0, 100, 0, 0, 0⟩) := by
    simp [widgets_helper_cpu_perc_num, pscanfRet, pscanfStore7, sampleA]
  have hA : sampleA = ticksA.toSample := by
    simp [sampleA, ticksA, CpuTicks.toSample]
  have hB : sampleB = ticksB.toSample := by
    simp [sampleB, ticksB, CpuTicks.toSample]
  have hM : (⟨200, 0, 0, 100, 0, 0, 0⟩ : CpuSample) =
      (⟨200, 0, 0, 100, 0, 0, 0⟩ : CpuTicks).toSample := by
    simp [CpuTicks.toSample]
  have t50 : truncToInt (50 : ℚ) = 50 := by exact_mod_cast truncToInt_intCast 50
  have t66 : truncToInt (200 / 3 : ℚ) = 66 := by
    rw [truncToInt_of_nonneg (by norm_num), Int.floor_eq_iff]
    norm_num
  refine ⟨e, ?_, ?_, ?_⟩
  · rw [e]
    simp [sampleA]
  · rw [e, hM, hB]
    refine cpu_perc_small _ _ 50 (by decide) (by decide) (by decide) (by decide) (by decide)
      (by decide) ?_
    have hq : (100 : ℚ) * (ticksB.toSample.active -
        (⟨200, 0, 0, 100, 0, 0, 0⟩ : CpuTicks).toSample.active) /
        (ticksB.toSample.total - (⟨200, 0, 0, 100, 0, 0, 0⟩ : CpuTicks).toSample.total) = 50 := by
      norm_num [ticksB, CpuTicks.toSample, CpuSample.active, CpuSample.total]
    rw [hq, t50]
  · rw [hA, hB]
    refine cpu_perc_small _ _ 66 (by decide) (by decide) (by decide) (by decide) (by decide)
      (by decide) ?_
    have hq : (100 : ℚ) * (ticksB.toSample.active - ticksA.toSample.active) /
        (ticksB.toSample.total - ticksA.toSample.total) = 200 / 3 := by
      norm_num [ticksA, ticksB, CpuTicks.toSample, CpuSample.active, CpuSample.total]
    rw [hq, t66]

/-! ## Properties of the battery helpers -/

/-- With a zero `charge_full` the percentage expression has no defined value,
whatever `charge_now` is. -/
theorem battery_perc_expr_zero_full (charge_now r : Int) :
    battery_perc_expr charge_now 0 ≠ .ok r := by
  unfold battery_perc_expr mulInt
  split_ifs
  · simp [divInt]
  · simp

/-- C6 (the code at the failing input): for battery `BAT0` of `sysfsNoFull`,
`charge_now` reads 2500000 and `charge_full` cannot be read, so its helper
returns 0 and `widgets_helper_battery_perc` evaluates `250000000 / 0`: the
division by zero is carried out, no fallback percentage is returned. For no
`charge_now` does the expression have a defined value when `charge_full` is 0. -/
theorem battery_perc_divides_by_zero :
    widgets_helper_battery_charge_now sysfsNoFull "BAT0" = 2500000 ∧
    widgets_helper_battery_charge_full sysfsNoFull "BAT0" = 0 ∧
    widgets_helper_battery_perc sysfsNoFull "BAT0" = .error .divByZero ∧
    ∀ charge_now r : Int, battery_perc_expr charge_now 0 ≠ .ok r :=
  ⟨by decide, by decide, rfl, battery_perc_expr_zero_full⟩

/-- The banding function in closed form: the nearest multiple of ten, halves
rounded up, clamped to `0 .. 100`. -/
theorem normalized_level_closed (x : Int) :
    widget_helper_battery_normalized_level x = max 0 (min 100 (10 * ((x + 5) / 10))) := by
  by_cases h0 : x < 5
  · simp only [widget_helper_battery_normalized_level, if_pos h0]
    omega
  by_cases h1 : x < 15
  · simp only [widget_helper_battery_normalized_level, if_neg h0, if_pos h1]
    omega
  by_cases h2 : x < 25
  · simp only [widget_helper_battery_normalized_level, if_neg h0, if_neg h1, if_pos h2]
    omega
  by_cases h3 : x < 35
  · simp only [widget_helper_battery_normalized_level, if_neg h0, if_neg h1, if_neg h2,
      if_pos h3]
    omega
  by_cases h4 : x < 45
  · simp only [widget_helper_battery_normalized_level, if_neg h0, if_neg h1, if_neg h2,
      if_neg h3, if_pos h4]
    omega
  by_cases h5 : x < 55
  · simp only [widget_helper_battery_normalized_level, if_neg h0, if_neg h1, if_neg h2,
      if_neg h3, if_neg h4, if_pos h5]
    omega
  by_cases h6 : x < 65
  · simp only [widget_helper_battery_normalized_level, if_neg h0, if_neg h1, if_neg h2,
      if_neg h3, if_neg h4, if_neg h5, if_pos h6]
    omega
  by_cases h7 : x < 75
  · simp only [widget_helper_battery_normalized_level, if_neg h0, if_neg h1, if_neg h2,
      if_neg h3, if_neg h4, if_neg h5, if_neg h6, if_pos h7]
    omega
  by_cases h8 : x < 85
  · simp only [widget_helper_battery_normalized_level, if_neg h0, if_neg h1, if_neg h2,
      if_neg h3, if_neg h4, if_neg h5, if_neg h6, if_neg h7, if_pos h8]
    omega
  by_cases h9 : x < 95
  · simp only [widget_helper_battery_normalized_level, if_neg h0, if_neg h1, if_neg h2,
      if_neg h3, if_neg h4, if_neg h5, if_neg h6, if_neg h7, if_neg h8, if_pos h9]
    omega
  simp only [widget_helper_battery_normalized_level, if_neg h0, if_neg h1, if_neg h2,
    if_neg h3, if_neg h4, if_neg h5, if_neg h6, if_neg h7, if_neg h8, if_neg h9]
  omega

/-- C7: the banding function is the documented step function. It is 0 below
5, 100 from 95 on, and `10 * k` on `10 * k - 5 ≤ x < 10 * k + 5` for `k` in
`1 .. 9`, and every `x` from 5 to 94 has such a `k`; `band(0) = 0`,
`band(100) = 100`, and each boundary value `10 * k + 5` (`k` in `0 .. 9`: 5,
15, ..., 95) maps to the higher band `10 * (k + 1)`. -/
theorem normalized_level_step (x k : Int) :
    (x < 5 → widget_helper_battery_normalized_level x = 0) ∧
    (95 ≤ x → widget_helper_battery_normalized_level x = 100) ∧
    (1 ≤ k → k ≤ 9 → 10 * k - 5 ≤ x → x < 10 * k + 5 →
      widget_helper_battery_normalized_level x = 10 * k) ∧
    widget_helper_battery_normalized_level 0 = 0 ∧
    widget_helper_battery_normalized_level 100 = 100 ∧
    (0 ≤ k → k ≤ 9 →
      widget_helper_battery_normalized_level (10 * k + 5) = 10 * (k + 1)) ∧
    (5 ≤ x → x < 95 → ∃ j : Int, 1 ≤ j ∧ j ≤ 9 ∧ 10 * j - 5 ≤ x ∧ x < 10 * j + 5 ∧
      widget_helper_battery_normalized_level x = 10 * j) := by
  refine ⟨?_, ?_, ?_, by decide, by decide, ?_, ?_⟩
  · intro h
    rw [normalized_level_closed]; omega
  · intro h
    rw [normalized_level_closed]; omega
  · intro h1 h2 h3 h4
    rw [normalized_level_closed]; omega
  · intro h1 h2
    rw [normalized_level_closed]; omega
  · intro h1 h2
    refine ⟨(x + 5) / 10, ?_, ?_, ?_, ?_, ?_⟩
    · omega
    · omega
    · omega
    · omega
    · rw [normalized_level_closed]; omega

/-- Witness for `normalized_level_step`: a negative value, a value above 100,
42 in the band of `k = 4`, and the boundary 45 of `k = 4`. -/
theorem normalized_level_step_witness :
    widget_helper_battery_normalized_level (-3) = 0 ∧
    widget_helper_battery_normalized_level 250 = 100 ∧
    widget_helper_battery_normalized_level 42 = 10 * 4 ∧
    widget_helper_battery_normalized_level (10 * 4 + 5) = 10 * (4 + 1) :=
  ⟨(normalized_level_step (-3) 4).1 (by decide),
   (normalized_level_step 250 4).2.1 (by decide),
   (normalized_level_step 42 4).2.2.1 (by decide) (by decide) (by decide) (by decide),
   (normalized_level_step 42 4).2.2.2.2.2.1 (by decide) (by decide)⟩

/-- C8: banding is monotonic, `band(x) ≤ band(y)` whenever `x ≤ y`. -/
theorem normalized_level_mono (x y : Int) (h : x ≤ y) :
    widget_helper_battery_normalized_level x ≤ widget_helper_battery_normalized_level y := by
  rw [normalized_level_closed, normalized_level_closed]; omega

/-- Witness for `normalized_level_mono`: 14 and 15 lie on either side of a
boundary. -/
theorem normalized_level_mono_witness :
    widget_helper_battery_normalized_level 14 ≤ widget_helper_battery_normalized_level 15 :=
  normalized_level_mono 14 15 (by decide)

/-- C9, as stated, fails: level 0 is a table level, and for a non-charging
state its table glyph is the glyph returned after the `switch`, the one an
out-of-table level such as 7 gets. -/
theorem battery_icon_fallback_counterexample :
    (0 : Int) ∈ tableLevels ∧
    widgets_helper_battery_icon .DISCHARGING 0 = battery_icon_fallback ∧
    widgets_helper_battery_icon .DISCHARGING 0 = widgets_helper_battery_icon .DISCHARGING 7 := by
  refine ⟨by decide, by decide, by decide⟩

/-- C9 (amended): for every table level other than 0 with any state, and for
level 0 with the charging state, the glyph returned is different from the
fallback glyph; for level 0 with a non-charging state the table glyph is the
fallback glyph. -/
theorem battery_icon_not_fallback (state : BATTERY_STATE) (level : Int)
    (hl : level ∈ tableLevels) (h : level ≠ 0 ∨ state = .CHARGING) :
    widgets_helper_battery_icon state level ≠ battery_icon_fallback ∧
    ∀ s : BATTERY_STATE, s ≠ .CHARGING →
      widgets_helper_battery_icon s 0 = battery_icon_fallback := by
  constructor
  · simp only [tableLevels, List.mem_cons, List.mem_singleton, List.not_mem_nil,
      or_false] at hl
    rcases hl with rfl | rfl | rfl | rfl | rfl | rfl | rfl | rfl | rfl | rfl | rfl <;>
      cases state <;>
      simp_all +decide [widgets_helper_battery_icon, battery_icon_fallback]
  · intro s hs
    cases s <;> simp_all +decide [widgets_helper_battery_icon, battery_icon_fallback]

/-- Witness for `battery_icon_not_fallback`: level 50 while discharging. -/
theorem battery_icon_not_fallback_witness :
    widgets_helper_battery_icon .DISCHARGING 50 ≠ battery_icon_fallback ∧
    ∀ s : BATTERY_STATE, s ≠ .CHARGING →
      widgets_helper_battery_icon s 0 = battery_icon_fallback :=
  battery_icon_not_fallback .DISCHARGING 50 (by decide) (Or.inl (by decide))

/-- The state returned for a status text `s` that fits the buffer with its
terminator. -/
theorem battery_state_of_text (fs : Sysfs) (bat : String) (s : String)
    (h : statusText fs bat = some s) (hfit : s.utf8ByteSize + 1 ≤ statusBufSize) :
    widgets_helper_battery_state fs bat =
      .ok (if s = "Charging" then .CHARGING
        else if s = "Discharging" then .DISCHARGING
        else if s = "Full" then .CHARGED
        else if s = "Not charging" then .NOT_CHARGING
        else .UNKNOWN) := by
  simp only [widgets_helper_battery_state, h, if_neg (not_lt.mpr hfit), stateMap, searchMap]
  by_cases h1 : s = "Charging"
  · subst h1; rfl
  by_cases h2 : s = "Discharging"
  · subst h2; rfl
  by_cases h3 : s = "Full"
  · subst h3; rfl
  by_cases h4 : s = "Not charging"
  · subst h4; rfl
  simp [h1, h2, h3, h4, Ne.symm h1, Ne.symm h2, Ne.symm h3, Ne.symm h4]

/-- A status text of 12 bytes or more does not fit the buffer with its
terminator: the call has no defined result. -/
theorem battery_state_of_long_text (fs : Sysfs) (bat : String) (s : String)
    (h : statusText fs bat = some s) (hlong : statusBufSize < s.utf8ByteSize + 1) :
    widgets_helper_battery_state fs bat = .error .bufferOverrun := by
  simp only [widgets_helper_battery_state, h, if_pos hlong]

/-- For a status text that fits the buffer the comparison is exact and
case-sensitive: each of the three shorter table strings gives its state, and
every other text that fits gives `UNKNOWN`, as does a failed read. -/
theorem battery_state_match_of_fits (fs : Sysfs) (bat : String) (s : String)
    (h : statusText fs bat = some s) (hfit : s.utf8ByteSize + 1 ≤ statusBufSize) :
    (widgets_helper_battery_state fs bat = .ok .CHARGING ↔ s = "Charging") ∧
    (widgets_helper_battery_state fs bat = .ok .DISCHARGING ↔ s = "Discharging") ∧
    (widgets_helper_battery_state fs bat = .ok .CHARGED ↔ s = "Full") ∧
    (widgets_helper_battery_state fs bat = .ok .UNKNOWN ↔
      s ≠ "Charging" ∧ s ≠ "Discharging" ∧ s ≠ "Full") ∧
    widgets_helper_battery_state fs bat ≠ .ok .NOT_CHARGING := by
  have hnc : s ≠ "Not charging" := by
    intro hs
    rw [hs] at hfit
    exact absurd hfit (by decide)
  rw [battery_state_of_text fs bat s h hfit]
  by_cases h1 : s = "Charging"
  · subst h1; simp
  by_cases h2 : s = "Discharging"
  · subst h2; simp
  by_cases h3 : s = "Full"
  · subst h3; simp
  simp [h1, h2, h3, hnc]

/-- C10 (the code at the failing input): a status file holding `Not charging`
makes the scan obtain that text, 12 bytes, and write it with its terminator
into the 12 bytes of `state`: the write runs past the buffer and the call
does not return `NOT_CHARGING`. The three shorter table strings and the
lower-case `charging` fit the buffer and are classified as the claim says. -/
theorem battery_state_not_charging_overruns :
    statusText (sysfsOf 2500000 5000000 "Not charging\n") "BAT0" = some "Not charging" ∧
    widgets_helper_battery_state (sysfsOf 2500000 5000000 "Not charging\n") "BAT0" =
      .error .bufferOverrun ∧
    widgets_helper_battery_state (sysfsOf 2500000 5000000 "Not charging\n") "BAT0" ≠
      .ok .NOT_CHARGING ∧
    widgets_helper_battery_state (sysfsOf 2500000 5000000 "Charging\n") "BAT0" =
      .ok .CHARGING ∧
    widgets_helper_battery_state (sysfsOf 2500000 5000000 "Discharging\n") "BAT0" =
      .ok .DISCHARGING ∧
    widgets_helper_battery_state (sysfsOf 2500000 5000000 "Full\n") "BAT0" = .ok .CHARGED ∧
    widgets_helper_battery_state (sysfsOf 2500000 5000000 "charging\n") "BAT0" =
      .ok .UNKNOWN ∧
    widgets_helper_battery_state sysfsEmpty "BAT0" = .ok .UNKNOWN := by
  have h : widgets_helper_battery_state (sysfsOf 2500000 5000000 "Not charging\n") "BAT0" =
      .error .bufferOverrun := rfl
  refine ⟨by decide, h, ?_, rfl, rfl, rfl, rfl, rfl⟩
  rw [h]
  intro hc
  cases hc

/-! ## Properties of the battery widget -/

/-- A non-charging state never selects the charging glyph: the icon is the
one of `DISCHARGING`. -/
theorem battery_icon_of_not_charging (s : BATTERY_STATE) (level : Int)
    (hs : s ≠ .CHARGING) :
    widgets_helper_battery_icon s level = widgets_helper_battery_icon .DISCHARGING level := by
  cases s <;> first | exact absurd rfl hs | rfl

/-- C11: for every level, in the table or not, a state other than `CHARGING`
(`UNKNOWN`, `NOT_CHARGING`, `DISCHARGING`, `CHARGED`) gets the glyph that
`DISCHARGING` gets, and for every table level the glyph of `CHARGING` differs
from that non-charging glyph. -/
theorem battery_icon_only_charging (s : BATTERY_STATE) (level tl : Int)
    (hs : s ≠ .CHARGING) (hl : tl ∈ tableLevels) :
    widgets_helper_battery_icon s level = widgets_helper_battery_icon .DISCHARGING level ∧
    widgets_helper_battery_icon .CHARGING tl ≠ widgets_helper_battery_icon .DISCHARGING tl := by
  refine ⟨battery_icon_of_not_charging s level hs, ?_⟩
  simp only [tableLevels, List.mem_cons, List.mem_singleton, List.not_mem_nil,
    or_false] at hl
  rcases hl with rfl | rfl | rfl | rfl | rfl | rfl | rfl | rfl | rfl | rfl | rfl <;> decide

/-- Witness for `battery_icon_only_charging`: the state `CHARGED` at the
out-of-table level 7, and the two glyphs of level 60. -/
theorem battery_icon_only_charging_witness :
    widgets_helper_battery_icon .CHARGED 7 = widgets_helper_battery_icon .DISCHARGING 7 ∧
    widgets_helper_battery_icon .CHARGING 60 ≠ widgets_helper_battery_icon .DISCHARGING 60 :=
  battery_icon_only_charging .CHARGED 7 60 (by decide) (by decide)

/-- The quotient of an `int` product by a non-zero divisor is representable,
the product of a value by 100 never being `INT_MIN`. -/
theorem tdiv_inIntRange (cn cf : Int) (hr : inIntRange (cn * 100)) :
    inIntRange (Int.tdiv (cn * 100) cf) := by
  have hne : cn * 100 ≠ -2147483648 := by omega
  have hab : (cn * 100).natAbs ≤ 2147483647 := by
    have h1 := hr.1
    have h2 := hr.2
    simp only [INT_MIN, INT_MAX] at h1 h2
    omega
  have hq : (Int.tdiv (cn * 100) cf).natAbs ≤ 2147483647 := by
    rw [Int.natAbs_tdiv]
    exact le_trans (Nat.div_le_self _ _) hab
  constructor
  · simp only [INT_MIN]; omega
  · simp only [INT_MAX]; omega

/-- The percentage expression whenever the product fits an `int` and the
divisor is not zero. -/
theorem battery_perc_expr_of_range (cn cf : Int) (hf : cf ≠ 0)
    (hr : inIntRange (cn * 100)) :
    battery_perc_expr cn cf = .ok (Int.tdiv (cn * 100) cf) := by
  simp [battery_perc_expr, mulInt, divInt, hr, hf, tdiv_inIntRange cn cf hr]

/-- The percentage expression when the product does not fit an `int`. -/
theorem battery_perc_expr_of_overflow (cn cf : Int) (hr : ¬ inIntRange (cn * 100)) :
    battery_perc_expr cn cf = .error .intOverflow := by
  simp [battery_perc_expr, mulInt, hr]

/-- C12, as stated, fails: with `charge_now = 536870912` and the non-zero
`charge_full = -1` the product `charge_now * 100` does not fit an `int`, and
`widgets_battery` builds no string. -/
theorem widgets_battery_counterexample :
    widgets_helper_battery_charge_now (sysfsOf 536870912 (-1) "Full\n") "BAT0" = 536870912 ∧
    widgets_helper_battery_charge_full (sysfsOf 536870912 (-1) "Full\n") "BAT0" ≠ 0 ∧
    ¬ inIntRange (536870912 * 100) ∧
    widgets_battery (sysfsOf 536870912 (-1) "Full\n") "BAT0" = .error .intOverflow :=
  ⟨rfl, by decide, by decide, rfl⟩

/-- C12 (amended): for every `charge_now` whose product `charge_now * 100` is
representable as an `int`, every `charge_full != 0` and every battery state
that the status read returns, `widgets_helper_battery_perc` returns
`p = (charge_now * 100) / charge_full` and `widgets_battery` builds the icon
of the banded level `band(p)`, one space, the decimal rendering of the
unbanded `p` and a percent sign. -/
theorem widgets_battery_format (fs : Sysfs) (bat : String) (state : BATTERY_STATE)
    (hf : widgets_helper_battery_charge_full fs bat ≠ 0)
    (hr : inIntRange (widgets_helper_battery_charge_now fs bat * 100))
    (hst : widgets_helper_battery_state fs bat = .ok state) :
    widgets_helper_battery_perc fs bat =
      .ok (Int.tdiv (widgets_helper_battery_charge_now fs bat * 100)
        (widgets_helper_battery_charge_full fs bat)) ∧
    widgets_battery fs bat =
      .ok (widgets_helper_battery_icon state
            (widget_helper_battery_normalized_level
              (Int.tdiv (widgets_helper_battery_charge_now fs bat * 100)
                (widgets_helper_battery_charge_full fs bat))) ++ " " ++
          fmtD (Int.tdiv (widgets_helper_battery_charge_now fs bat * 100)
            (widgets_helper_battery_charge_full fs bat)) ++ "%") := by
  have hp : widgets_helper_battery_perc fs bat =
      .ok (Int.tdiv (widgets_helper_battery_charge_now fs bat * 100)
        (widgets_helper_battery_charge_full fs bat)) := by
    simp only [widgets_helper_battery_perc]
    exact battery_perc_expr_of_range _ _ hf hr
  refine ⟨hp, ?_⟩
  simp only [widgets_battery, hp, hst]

/-- Witness for `widgets_battery_format`: a charging battery at 2100000 of
5000000 shows the glyph of level 40 and the number 42. -/
theorem widgets_battery_format_witness :
    widgets_helper_battery_perc (sysfsOf 2100000 5000000 "Charging\n") "BAT0" = .ok 42 ∧
    widgets_battery (sysfsOf 2100000 5000000 "Charging\n") "BAT0" =
      .ok (widgets_helper_battery_icon .CHARGING 40 ++ " " ++ "42" ++ "%") :=
  widgets_battery_format (sysfsOf 2100000 5000000 "Charging\n") "BAT0" .CHARGING (by decide)
    (by decide) rfl

/-- C13, as stated, fails: `charge_now = 30000000` and `charge_full = 40000000`
are non-negative and positive `int` values whose mathematical quotient
`(charge_now * 100) / charge_full` is 75, and `widgets_helper_battery_perc`
does not return it: the 32-bit product overflows. -/
theorem battery_perc_quotient_counterexample :
    inIntRange 30000000 ∧ inIntRange 40000000 ∧
    (30000000 * 100 : Int) / 40000000 = 75 ∧
    widgets_helper_battery_perc (sysfsOf 30000000 40000000 "Full\n") "BAT0" =
      .error .intOverflow ∧
    widgets_helper_battery_perc (sysfsOf 30000000 40000000 "Full\n") "BAT0" ≠
      .ok ((30000000 * 100 : Int) / 40000000) := by
  have h : widgets_helper_battery_perc (sysfsOf 30000000 40000000 "Full\n") "BAT0" =
      .error .intOverflow := rfl
  refine ⟨by decide, by decide, by decide, h, ?_⟩
  rw [h]
  simp

/-- C13 (amended): for `charge_now >= 0` and `charge_full > 0`,
`widgets_helper_battery_perc` returns the mathematical integer quotient
`(charge_now * 100) / charge_full` when the product is at most `INT_MAX`
(`charge_now <= 21474836`), and has no defined result when it is larger, the
32-bit multiplication overflowing. -/
theorem battery_perc_quotient (fs : Sysfs) (bat : String)
    (hn : 0 ≤ widgets_helper_battery_charge_now fs bat)
    (hf : 0 < widgets_helper_battery_charge_full fs bat) :
    (widgets_helper_battery_charge_now fs bat ≤ 21474836 →
      widgets_helper_battery_perc fs bat =
        .ok (widgets_helper_battery_charge_now fs bat * 100 /
          widgets_helper_battery_charge_full fs bat)) ∧
    (21474836 < widgets_helper_battery_charge_now fs bat →
      widgets_helper_battery_perc fs bat = .error .intOverflow) := by
  constructor
  · intro hle
    have hr : inIntRange (widgets_helper_battery_charge_now fs bat * 100) := by
      constructor
      · simp only [INT_MIN]; omega
      · simp only [INT_MAX]; omega
    simp only [widgets_helper_battery_perc]
    rw [battery_perc_expr_of_range _ _ (ne_of_gt hf) hr,
      Int.tdiv_eq_ediv (by omega) (le_of_lt hf)]
  · intro hgt
    have hr : ¬ inIntRange (widgets_helper_battery_charge_now fs bat * 100) := by
      intro h
      have h2 := h.2
      simp only [INT_MAX] at h2
      omega
    simp only [widgets_helper_battery_perc]
    exact battery_perc_expr_of_overflow _ _ hr

/-- Witness for `battery_perc_quotient`: 2500000 of 5000000 gives 50. -/
theorem battery_perc_quotient_witness :
    widgets_helper_battery_perc sysfsHalf "BAT0" = .ok (2500000 * 100 / 5000000) :=
  (battery_perc_quotient sysfsHalf "BAT0" (by decide) (by decide)).1 (by decide)

/-- C19, as stated, fails: with `charge_now = charge_full = 25000000`, positive
`int` values with `0 <= charge_now <= charge_full`, the product
`charge_now * 100` overflows and `widgets_helper_battery_perc` returns no
value in `[0, 100]`. -/
theorem battery_perc_bounds_counterexample :
    inIntRange 25000000 ∧ (0 : Int) < 25000000 ∧
    widgets_helper_battery_charge_now (sysfsOf 25000000 25000000 "Full\n") "BAT0" =
      25000000 ∧
    widgets_helper_battery_charge_full (sysfsOf 25000000 25000000 "Full\n") "BAT0" =
      25000000 ∧
    ¬ ∃ p : Int, widgets_helper_battery_perc (sysfsOf 25000000 25000000 "Full\n") "BAT0" =
      .ok p ∧ 0 ≤ p ∧ p ≤ 100 := by
  have h : widgets_helper_battery_perc (sysfsOf 25000000 25000000 "Full\n") "BAT0" =
      .error .intOverflow := rfl
  refine ⟨by decide, by decide, rfl, rfl, ?_⟩
  rintro ⟨p, hp, -⟩
  rw [h] at hp
  simp at hp

/-- C19 (amended): for `charge_full > 0` and `0 <= charge_now <= charge_full`
with `charge_now * 100` at most `INT_MAX` (`charge_now <= 21474836`), the
percentage returned by `widgets_helper_battery_perc` lies in `[0, 100]`, and
it is 100 exactly when `charge_now = charge_full`. -/
theorem battery_perc_bounds (fs : Sysfs) (bat : String)
    (hf : 0 < widgets_helper_battery_charge_full fs bat)
    (hn : 0 ≤ widgets_helper_battery_charge_now fs bat)
    (hle : widgets_helper_battery_charge_now fs bat ≤ widgets_helper_battery_charge_full fs bat)
    (hmax : widgets_helper_battery_charge_now fs bat ≤ 21474836) :
    ∃ p : Int, widgets_helper_battery_perc fs bat = .ok p ∧ 0 ≤ p ∧ p ≤ 100 ∧
      (p = 100 ↔
        widgets_helper_battery_charge_now fs bat = widgets_helper_battery_charge_full fs bat) := by
  have hr : inIntRange (widgets_helper_battery_charge_now fs bat * 100) := by
    constructor
    · simp only [INT_MIN]; omega
    · simp only [INT_MAX]; omega
  have hp : widgets_helper_battery_perc fs bat =
      .ok (widgets_helper_battery_charge_now fs bat * 100 /
        widgets_helper_battery_charge_full fs bat) := by
    simp only [widgets_helper_battery_perc]
    rw [battery_perc_expr_of_range _ _ (ne_of_gt hf) hr,
      Int.tdiv_eq_ediv (by omega) (le_of_lt hf)]
  refine ⟨_, hp, ?_, ?_, ?_⟩
  · exact Int.ediv_nonneg (by omega) (le_of_lt hf)
  · exact Int.ediv_le_of_le_mul hf (by omega)
  · constructor
    · intro h100
      have h1 : (100 : Int) ≤ widgets_helper_battery_charge_now fs bat * 100 /
          widgets_helper_battery_charge_full fs bat := le_of_eq h100.symm
      rw [Int.le_ediv_iff_mul_le hf] at h1
      omega
    · intro heq
      rw [heq]
      exact Int.mul_ediv_cancel_left 100 (ne_of_gt hf)

/-- Witness for `battery_perc_bounds`: 2500000 of 5000000. -/
theorem battery_perc_bounds_witness :
    ∃ p : Int, widgets_helper_battery_perc sysfsHalf "BAT0" = .ok p ∧ 0 ≤ p ∧ p ≤ 100 ∧
      (p = 100 ↔
        widgets_helper_battery_charge_now sysfsHalf "BAT0" =
          widgets_helper_battery_charge_full sysfsHalf "BAT0") :=
  battery_perc_bounds sysfsHalf "BAT0" (by decide) (by decide) (by decide) (by decide)

/-- The icon function is its `switch`, followed by the fallback `return` when
no `case` was hit. -/
theorem battery_icon_eq_switch (state : BATTERY_STATE) (level : Int) :
    widgets_helper_battery_icon state level =
      (battery_icon_switch state level).getD battery_icon_fallback := by
  by_cases h0 : level = 0
  · subst h0; rfl
  by_cases h1 : level = 10
  · subst h1; rfl
  by_cases h2 : level = 20
  · subst h2; rfl
  by_cases h3 : level = 30
  · subst h3; rfl
  by_cases h4 : level = 40
  · subst h4; rfl
  by_cases h5 : level = 50
  · subst h5; rfl
  by_cases h6 : level = 60
  · subst h6; rfl
  by_cases h7 : level = 70
  · subst h7; rfl
  by_cases h8 : level = 80
  · subst h8; rfl
  by_cases h9 : level = 90
  · subst h9; rfl
  by_cases h10 : level = 100
  · subst h10; rfl
  simp only [widgets_helper_battery_icon, battery_icon_switch, if_neg h0, if_neg h1, if_neg h2,
    if_neg h3, if_neg h4, if_neg h5, if_neg h6, if_neg h7, if_neg h8, if_neg h9, if_neg h10,
    Option.getD_none]

/-- A table level hits a `case` of the `switch`. -/
theorem battery_icon_switch_isSome (state : BATTERY_STATE) (level : Int)
    (hl : level ∈ tableLevels) : (battery_icon_switch state level).isSome = true := by
  simp only [tableLevels, List.mem_cons, List.mem_singleton, List.not_mem_nil,
    or_false] at hl
  rcases hl with rfl | rfl | rfl | rfl | rfl | rfl | rfl | rfl | rfl | rfl | rfl <;> rfl

/-- Every value of the banding function is a table level. -/
theorem normalized_level_mem (p : Int) :
    widget_helper_battery_normalized_level p ∈ tableLevels := by
  have h := normalized_level_closed p
  have hc : widget_helper_battery_normalized_level p = 0 ∨
      widget_helper_battery_normalized_level p = 10 ∨
      widget_helper_battery_normalized_level p = 20 ∨
      widget_helper_battery_normalized_level p = 30 ∨
      widget_helper_battery_normalized_level p = 40 ∨
      widget_helper_battery_normalized_level p = 50 ∨
      widget_helper_battery_normalized_level p = 60 ∨
      widget_helper_battery_normalized_level p = 70 ∨
      widget_helper_battery_normalized_level p = 80 ∨
      widget_helper_battery_normalized_level p = 90 ∨
      widget_helper_battery_normalized_level p = 100 := by
    omega
  simp only [tableLevels, List.mem_cons, List.mem_singleton, List.not_mem_nil, or_false]
  exact hc

/-- C17: for every integer percentage `p`, negative or above 100 included, the
banded level is one of 0, 10, ..., 100; so the `switch` of the icon lookup
hits a `case` for it, whatever the state, and when `widgets_battery` builds
its string from a percentage `p` and a state the icon in it is the one that
`case` returned: the `return` after the `switch` is not reached. -/
theorem normalized_level_total (p : Int) (state : BATTERY_STATE) (fs : Sysfs)
    (bat : String) :
    widget_helper_battery_normalized_level p ∈ tableLevels ∧
    (∃ glyph : String,
      battery_icon_switch state (widget_helper_battery_normalized_level p) = some glyph ∧
      widgets_helper_battery_icon state (widget_helper_battery_normalized_level p) = glyph) ∧
    (widgets_helper_battery_perc fs bat = .ok p →
      widgets_helper_battery_state fs bat = .ok state →
      ∃ glyph : String,
        battery_icon_switch state (widget_helper_battery_normalized_level p) = some glyph ∧
        widgets_battery fs bat = .ok (glyph ++ " " ++ fmtD p ++ "%")) := by
  have hsw : ∀ st : BATTERY_STATE, ∃ glyph : String,
      battery_icon_switch st (widget_helper_battery_normalized_level p) = some glyph ∧
      widgets_helper_battery_icon st (widget_helper_battery_normalized_level p) = glyph := by
    intro st
    have hs := battery_icon_switch_isSome st _ (normalized_level_mem p)
    obtain ⟨g, hg⟩ := Option.isSome_iff_exists.mp hs
    exact ⟨g, hg, by rw [battery_icon_eq_switch, hg]; rfl⟩
  refine ⟨normalized_level_mem p, hsw state, ?_⟩
  intro hp hst
  obtain ⟨g, hg, hi⟩ := hsw state
  refine ⟨g, hg, ?_⟩
  simp only [widgets_battery, hp, hst, hi]

/-- Witness for `normalized_level_total`: the percentage 50 with a discharging
state, and the battery of `sysfsHalf`, which is discharging at 50. -/
theorem normalized_level_total_witness :
    widget_helper_battery_normalized_level 50 ∈ tableLevels ∧
    (∃ glyph : String,
      battery_icon_switch .DISCHARGING (widget_helper_battery_normalized_level 50) =
        some glyph ∧
      widgets_helper_battery_icon .DISCHARGING (widget_helper_battery_normalized_level 50) =
        glyph) ∧
    ∃ glyph : String,
      battery_icon_switch .DISCHARGING (widget_helper_battery_normalized_level 50) =
        some glyph ∧
      widgets_battery sysfsHalf "BAT0" = .ok (glyph ++ " " ++ fmtD 50 ++ "%") :=
  ⟨(normalized_level_total 50 .DISCHARGING sysfsHalf "BAT0").1,
   (normalized_level_total 50 .DISCHARGING sysfsHalf "BAT0").2.1,
   (normalized_level_total 50 .DISCHARGING sysfsHalf "BAT0").2.2 rfl rfl⟩

/-- C18: the icon lookup is injective on the table. If two table levels with
their states get the same glyph, the levels are equal and the two states
agree on being `CHARGING`; the 22 glyphs of the table are pairwise distinct. -/
theorem battery_icon_injective (s1 s2 : BATTERY_STATE) (l1 l2 : Int)
    (h1 : l1 ∈ tableLevels) (h2 : l2 ∈ tableLevels)
    (h : widgets_helper_battery_icon s1 l1 = widgets_helper_battery_icon s2 l2) :
    l1 = l2 ∧ (s1 = .CHARGING ↔ s2 = .CHARGING) ∧
    (tableLevels.map (widgets_helper_battery_icon .CHARGING) ++
      tableLevels.map (widgets_helper_battery_icon .DISCHARGING)).Nodup := by
  have key : ∀ a ∈ tableLevels, ∀ b ∈ tableLevels, ∀ c1 c2 : Bool,
      widgets_helper_battery_icon (if c1 then .CHARGING else .DISCHARGING) a =
        widgets_helper_battery_icon (if c2 then .CHARGING else .DISCHARGING) b →
      a = b ∧ c1 = c2 := by
    decide
  have norm : ∀ (s : BATTERY_STATE) (l : Int), widgets_helper_battery_icon s l =
      widgets_helper_battery_icon (if decide (s = .CHARGING) then .CHARGING else .DISCHARGING)
        l := by
    intro s l
    by_cases hs : s = .CHARGING
    · subst hs; rfl
    · rw [battery_icon_of_not_charging s l hs]
      simp [hs]
  rw [norm s1 l1, norm s2 l2] at h
  obtain ⟨hl, hc⟩ := key l1 h1 l2 h2 _ _ h
  refine ⟨hl, ?_, by decide⟩
  simpa using hc

/-- Witness for `battery_icon_injective`: level 30 twice, once with `UNKNOWN`
and once with `CHARGED`, both non-charging. -/
theorem battery_icon_injective_witness :
    (30 : Int) = 30 ∧ (BATTERY_STATE.UNKNOWN = .CHARGING ↔ BATTERY_STATE.CHARGED = .CHARGING) ∧
    (tableLevels.map (widgets_helper_battery_icon .CHARGING) ++
      tableLevels.map (widgets_helper_battery_icon .DISCHARGING)).Nodup :=
  battery_icon_injective .UNKNOWN .CHARGED 30 30 (by decide) (by decide) (by decide)

/-- C20 (the code at the failing input): the scan pattern stores up to
`statusScanWidth = 12` characters and then the terminating NUL, 13 bytes, in
a buffer of `statusBufSize = 12` bytes. A status file holding `Not charging`
makes the scan store the 12 characters of that status, so with the
terminator one byte more than the buffer holds. -/
theorem status_scan_overruns_buffer :
    statusScanWidth + 1 = 13 ∧ statusBufSize = 12 ∧
    ¬ (statusScanWidth + 1 ≤ statusBufSize) ∧
    scanStatus "Not charging\n" = some "Not charging" ∧
    "Not charging".utf8ByteSize + 1 = 13 ∧
    ¬ ("Not charging".utf8ByteSize + 1 ≤ statusBufSize) := by
  refine ⟨by decide, by decide, by decide, by decide, by decide, by decide⟩

/-! ## Properties of the `double` model -/

theorem log_bounds (x : ℚ) (hx : 0 < x) :
    (2 : ℚ) ^ Int.log 2 |x| ≤ x ∧ x < (2 : ℚ) ^ (Int.log 2 |x| + 1) := by
  rw [abs_of_pos hx]
  have h1 := Int.zpow_log_le_self (b := 2) (by norm_num) hx
  have h2 := Int.lt_zpow_succ_log_self (b := 2) (by norm_num) x
  simp only [Nat.cast_ofNat] at h1 h2
  exact ⟨h1, h2⟩

theorem two_pow_53_cast : (2 : ℚ) ^ (53 : ℤ) = ((2 ^ 53 : ℕ) : ℚ) := by norm_num

/-- Scaling an exact value by the unit of its last significant bit gives an
integer. -/
theorem isDouble_scaled_int (x : ℚ) (e : ℤ) (h : IsDouble x) (hlo : (2 : ℚ) ^ e ≤ x) :
    ∃ z : ℤ, x / (2 : ℚ) ^ (e - 52) = (z : ℚ) := by
  obtain ⟨m, j, hm, hx⟩ := h
  have h2 : (0 : ℚ) < 2 := by norm_num
  have hlt : (2 : ℚ) ^ e < (2 : ℚ) ^ (53 + j) := by
    refine lt_of_le_of_lt hlo ?_
    rw [hx, zpow_add₀ h2.ne', two_pow_53_cast]
    exact mul_lt_mul_of_pos_right (by exact_mod_cast hm) (by positivity)
  have he : e < 53 + j := (zpow_lt_zpow_iff_right₀ (by norm_num)).mp hlt
  obtain ⟨n, hn⟩ := Int.eq_ofNat_of_zero_le (show 0 ≤ j - (e - 52) by omega)
  refine ⟨m * 2 ^ n, ?_⟩
  rw [hx, mul_div_assoc, ← zpow_sub₀ h2.ne', hn]
  push_cast
  rw [zpow_natCast]

theorem roundDouble_of_isDouble {x : ℚ} (h : IsDouble x) : roundDouble x = x := by
  by_cases h0 : x = 0
  · simp [roundDouble, h0]
  have hpos : 0 < x := by
    obtain ⟨m, j, -, hx⟩ := h
    have : 0 ≤ x := by rw [hx]; positivity
    exact lt_of_le_of_ne this (Ne.symm h0)
  obtain ⟨z, hz⟩ := isDouble_scaled_int x _ h (log_bounds x hpos).1
  unfold roundDouble
  rw [if_neg h0, hz, roundHalfEven_intCast, ← hz]
  exact div_mul_cancel₀ x (by positivity)

theorem isDouble_roundDouble (q : ℚ) (hq : 0 ≤ q) : IsDouble (roundDouble q) := by
  by_cases h0 : q = 0
  · exact ⟨0, 0, by norm_num, by simp [roundDouble, h0]⟩
  have hpos : 0 < q := lt_of_le_of_ne hq (Ne.symm h0)
  have h2 : (0 : ℚ) < 2 := by norm_num
  obtain ⟨hlo, hhi⟩ := log_bounds q hpos
  have hu : (0 : ℚ) < (2 : ℚ) ^ (Int.log 2 |q| - 52) := by positivity
  have ht1 : (2 : ℚ) ^ (52 : ℤ) ≤ q / (2 : ℚ) ^ (Int.log 2 |q| - 52) := by
    rw [le_div_iff₀ hu, ← zpow_add₀ h2.ne']
    simpa using hlo
  have ht2 : q / (2 : ℚ) ^ (Int.log 2 |q| - 52) < (2 : ℚ) ^ (53 : ℤ) := by
    rw [div_lt_iff₀ hu, ← zpow_add₀ h2.ne']
    have : (53 : ℤ) + (Int.log 2 |q| - 52) = Int.log 2 |q| + 1 := by ring
    rw [this]
    exact hhi
  obtain ⟨hb1, hb2⟩ := roundHalfEven_bounds (q / (2 : ℚ) ^ (Int.log 2 |q| - 52))
  have hf1 : (2 : ℤ) ^ 52 ≤ ⌊q / (2 : ℚ) ^ (Int.log 2 |q| - 52)⌋ := by
    rw [Int.le_floor]
    have : (((2 : ℤ) ^ 52 : ℤ) : ℚ) = (2 : ℚ) ^ (52 : ℤ) := by norm_num
    rw [this]
    exact ht1
  have hf2 : ⌊q / (2 : ℚ) ^ (Int.log 2 |q| - 52)⌋ < (2 : ℤ) ^ 53 := by
    rw [Int.floor_lt]
    have : (((2 : ℤ) ^ 53 : ℤ) : ℚ) = (2 : ℚ) ^ (53 : ℤ) := by norm_num
    rw [this]
    exact ht2
  unfold roundDouble
  rw [if_neg h0]
  generalize roundHalfEven (q / (2 : ℚ) ^ (Int.log 2 |q| - 52)) = r at hb1 hb2
  generalize ⌊q / (2 : ℚ) ^ (Int.log 2 |q| - 52)⌋ = f at hb1 hb2 hf1 hf2
  have hr0 : 0 ≤ r := by
    have : (0 : ℤ) ≤ 2 ^ 52 := by norm_num
    omega
  obtain ⟨m, rfl⟩ := Int.eq_ofNat_of_zero_le hr0
  by_cases hm : m < 2 ^ 53
  · exact ⟨m, _, hm, by push_cast; rfl⟩
  · have hmeq : m = 2 ^ 53 := by
      have h53 : (2 : ℤ) ^ 53 = ((2 ^ 53 : ℕ) : ℤ) := by norm_num
      have : (m : ℤ) ≤ 2 ^ 53 := by omega
      rw [h53] at this
      have : m ≤ 2 ^ 53 := by exact_mod_cast this
      omega
    refine ⟨2 ^ 52, Int.log 2 |q| - 52 + 1, by norm_num, ?_⟩
    rw [hmeq, zpow_add_one₀ h2.ne']
    push_cast
    ring

theorem isDouble_div_1024 {x : ℚ} (h : IsDouble x) : IsDouble (x / 1024) := by
  obtain ⟨m, j, hm, hx⟩ := h
  refine ⟨m, j - 10, hm, ?_⟩
  rw [hx, zpow_sub₀ (by norm_num : (2 : ℚ) ≠ 0)]
  norm_num
  ring

theorem divDouble_1024 {x : ℚ} (h : IsDouble x) : divDouble x 1024 = x / 1024 :=
  roundDouble_of_isDouble (isDouble_div_1024 h)

theorem isDouble_toDouble (n : Nat) : IsDouble (toDouble n) :=
  isDouble_roundDouble n (by positivity)

theorem toDouble_of_lt (n : Nat) (h : n < 2 ^ 53) : toDouble n = n :=
  roundDouble_of_isDouble ⟨n, 0, h, by simp⟩

/-! ## Properties of the memory and disk helpers -/

/-- Without wraparound the 64-bit computation of `used` is the exact value. -/
theorem ram_used_kb_exact (total free buffers cached shmem : Nat)
    (hle : free + buffers + cached ≤ total)
    (hres : total - free - buffers - cached + shmem < 2 ^ 64) :
    ram_used_kb total free buffers cached shmem = total - free - buffers - cached + shmem := by
  simp only [ram_used_kb, addU64, subU64, UINT64_SIZE]
  omega

/-- The fields a full scan of the memory file assigns. -/
theorem ram_used_of_fields (total free available buffers cached shmem : Nat)
    (mid : List Nat) (hmid : mid.length = 17) :
    widgets_helper_ram_used (some ([total, free, available, buffers, cached] ++ mid ++ [shmem])) =
      divDouble (divDouble (toDouble (ram_used_kb total free buffers cached shmem)) 1024) 1024 := by
  have hret : pscanfRet 23
      (some ([total, free, available, buffers, cached] ++ mid ++ [shmem])) = 23 := by
    simp [pscanfRet, hmid]
  have h22 : ([total, free, available, buffers, cached] ++ mid ++ [shmem]).getD 22 0 = shmem := by
    rw [List.getD_append_right _ _ _ _ (by simp [hmid])]
    simp [hmid]
  simp only [widgets_helper_ram_used, hret, ne_eq, not_true_eq_false, if_false, Option.getD_some,
    h22]
  rfl

/-- C14: after a full read of the 23 fields with `free + buffers + cached <=
total` and a result below `2 ^ 64`, the 64-bit computation of `used` is the
exact `(total - free - buffers - cached) + shmem`, without wraparound, and the
helper returns `(double)used / 1024 / 1024`: the two divisions are exact, and
so is the conversion for `used` below `2 ^ 53`, where the value returned is
the exact `used / 1024 / 1024`. For the counters of `meminfoExample`, `used`
is 11900000 kB and the value returned is `11900000 / 1024 / 1024`, which
rounds to 11.35. -/
theorem ram_used_formula (total free available buffers cached shmem : Nat)
    (mid : List Nat) (hmid : mid.length = 17)
    (hle : free + buffers + cached ≤ total)
    (hres : total - free - buffers - cached + shmem < 2 ^ 64) :
    ram_used_kb total free buffers cached shmem = total - free - buffers - cached + shmem ∧
    widgets_helper_ram_used
        (some ([total, free, available, buffers, cached] ++ mid ++ [shmem])) =
      toDouble (total - free - buffers - cached + shmem) / 1024 / 1024 ∧
    (total - free - buffers - cached + shmem < 2 ^ 53 →
      widgets_helper_ram_used
          (some ([total, free, available, buffers, cached] ++ mid ++ [shmem])) =
        ((total - free - buffers - cached + shmem : Nat) : ℚ) / 1024 / 1024) ∧
    ram_used_kb 16000000 1000000 200000 3000000 100000 = 11900000 ∧
    widgets_helper_ram_used (some meminfoExample) = 11900000 / 1024 / 1024 ∧
    (11345 : ℚ) / 1000 ≤ widgets_helper_ram_used (some meminfoExample) ∧
    widgets_helper_ram_used (some meminfoExample) < 11355 / 1000 := by
  have hgen : ∀ (t f av b c sh : Nat) (md : List Nat), md.length = 17 →
      f + b + c ≤ t → t - f - b - c + sh < 2 ^ 64 →
      widgets_helper_ram_used (some ([t, f, av, b, c] ++ md ++ [sh])) =
        toDouble (t - f - b - c + sh) / 1024 / 1024 := by
    intro t f av b c sh md hmd h1 h2
    rw [ram_used_of_fields t f av b c sh md hmd, ram_used_kb_exact t f b c sh h1 h2,
      divDouble_1024 (isDouble_toDouble _),
      divDouble_1024 (isDouble_div_1024 (isDouble_toDouble _))]
  have hex : widgets_helper_ram_used (some meminfoExample) = 11900000 / 1024 / 1024 := by
    have h := hgen 16000000 1000000 12000000 200000 3000000 100000
      [0, 0, 0, 0, 0, 0, 0, 0, 0, 0, 0, 0, 0, 0, 0, 0, 0] rfl (by norm_num) (by norm_num)
    rw [toDouble_of_lt _ (by norm_num)] at h
    rw [show meminfoExample = [16000000, 1000000, 12000000, 200000, 3000000] ++
      [0, 0, 0, 0, 0, 0, 0, 0, 0, 0, 0, 0, 0, 0, 0, 0, 0] ++ [100000] from rfl, h]
    norm_num
  refine ⟨ram_used_kb_exact _ _ _ _ _ hle hres, hgen _ _ _ _ _ _ _ hmid hle hres, ?_, by decide,
    hex, ?_, ?_⟩
  · intro h53
    rw [hgen _ _ _ _ _ _ _ hmid hle hres, toDouble_of_lt _ h53]
  · rw [hex]; norm_num
  · rw [hex]; norm_num

/-- Witness for `ram_used_formula`: the counters of the memory example. -/
theorem ram_used_formula_witness :
    widgets_helper_ram_used (some meminfoExample) =
      toDouble (16000000 - 1000000 - 200000 - 3000000 + 100000) / 1024 / 1024 :=
  (ram_used_formula 16000000 1000000 12000000 200000 3000000 100000
    [0, 0, 0, 0, 0, 0, 0, 0, 0, 0, 0, 0, 0, 0, 0, 0, 0] rfl (by decide) (by decide)).2.1

/-- The value of the disk helper after a successful query. -/
theorem disk_free_of_query (statvfs : String → Option Statvfs) (path : String) (fs : Statvfs)
    (h : statvfs path = some fs) :
    widgets_helper_disk_free statvfs path =
      toDouble (mulU64 fs.f_frsize fs.f_bavail) / 1024 / 1024 / 1024 := by
  simp only [widgets_helper_disk_free, h]
  rw [divDouble_1024 (isDouble_toDouble _),
    divDouble_1024 (isDouble_div_1024 (isDouble_toDouble _)),
    divDouble_1024 (isDouble_div_1024 (isDouble_div_1024 (isDouble_toDouble _)))]

/-- The free space of the disk example, `4096 * 2500000 / 1024 ^ 3`. -/
theorem disk_free_example :
    widgets_helper_disk_free statvfsExample "/" = 78125 / 8192 := by
  rw [disk_free_of_query statvfsExample "/" ⟨4096, 2500000⟩ rfl]
  have hm : mulU64 4096 2500000 = 10240000000 := by decide
  simp only [hm]
  rw [toDouble_of_lt _ (by norm_num)]
  norm_num

/-- The tenths of the free space of the disk example round to 95. -/
theorem disk_free_example_tenths : roundHalfEven (|(78125 / 8192 : ℚ)| * 10) = 95 := by
  have habs : |(78125 / 8192 : ℚ)| = 78125 / 8192 := abs_of_pos (by norm_num)
  have hfl : ⌊(78125 / 8192 : ℚ) * 10⌋ = 95 := by
    rw [Int.floor_eq_iff]; norm_num
  rw [habs]
  unfold roundHalfEven
  rw [hfl]
  norm_num

/-- The text shown for the disk example. -/
theorem widgets_disk_example : widgets_disk statvfsExample "/" = "9.5Gb" := by
  have hneg : ¬ ((78125 / 8192 : ℚ) < 0) := by norm_num
  simp only [widgets_disk, disk_free_example, fmtF1, disk_free_example_tenths, if_neg hneg]
  decide

/-- C15, as stated, fails: for `f_frsize = 4096` and `f_bavail = 2500000` the
free space returned is `4096 * 2500000 / 1024 ^ 3 = 9.5367431640625`, which is
not within a hundredth of 9.31, and the text shown is `9.5Gb`, not `9.3Gb`. -/
theorem widgets_disk_counterexample :
    statvfsExample "/" = some ⟨4096, 2500000⟩ ∧
    widgets_helper_disk_free statvfsExample "/" = 4096 * 2500000 / 1024 ^ 3 ∧
    widgets_helper_disk_free statvfsExample "/" = 95367431640625 / 10000000000000 ∧
    ¬ ((930 : ℚ) / 100 ≤ widgets_helper_disk_free statvfsExample "/" ∧
       widgets_helper_disk_free statvfsExample "/" ≤ 932 / 100) ∧
    widgets_disk statvfsExample "/" = "9.5Gb" ∧
    widgets_disk statvfsExample "/" ≠ "9.3Gb" := by
  refine ⟨rfl, ?_, ?_, ?_, widgets_disk_example, ?_⟩
  · rw [disk_free_example]; norm_num
  · rw [disk_free_example]; norm_num
  · rw [disk_free_example]; norm_num
  · rw [widgets_disk_example]; decide

/-- C15 (amended): after a successful query the helper returns
`(double)(f_frsize * f_bavail) / 1024 / 1024 / 1024`, the product taken in
64-bit unsigned arithmetic and the three divisions exact; it is the exact
`f_frsize * f_bavail / 1024 ^ 3` when the product is below `2 ^ 53`.
`widgets_disk` shows it with one decimal place, in at least three columns,
followed by `Gb`. For `f_frsize = 4096` and `f_bavail = 2500000` the free
space is `9.5367431640625`, about 9.54, and the text is `9.5Gb`. -/
theorem widgets_disk_format (statvfs : String → Option Statvfs) (path : String)
    (fs : Statvfs) (h : statvfs path = some fs) :
    widgets_helper_disk_free statvfs path =
      toDouble ((fs.f_frsize * fs.f_bavail) % 2 ^ 64) / 1024 / 1024 / 1024 ∧
    (fs.f_frsize * fs.f_bavail < 2 ^ 53 →
      widgets_helper_disk_free statvfs path =
        ((fs.f_frsize * fs.f_bavail : Nat) : ℚ) / 1024 ^ 3) ∧
    widgets_disk statvfs path =
      fmtWidth 3 (fmtF1 (widgets_helper_disk_free statvfs path)) ++ "Gb" ∧
    widgets_helper_disk_free statvfsExample "/" = 95367431640625 / 10000000000000 ∧
    (953 : ℚ) / 100 ≤ widgets_helper_disk_free statvfsExample "/" ∧
    widgets_helper_disk_free statvfsExample "/" < 954 / 100 ∧
    widgets_disk statvfsExample "/" = "9.5Gb" := by
  have hq := disk_free_of_query statvfs path fs h
  refine ⟨hq, ?_, rfl, ?_, ?_, ?_, widgets_disk_example⟩
  · intro h53
    have hmod : mulU64 fs.f_frsize fs.f_bavail = fs.f_frsize * fs.f_bavail := by
      simp only [mulU64, UINT64_SIZE]
      omega
    rw [hq, hmod, toDouble_of_lt _ h53]
    norm_num
    ring
  · rw [disk_free_example]; norm_num
  · rw [disk_free_example]; norm_num
  · rw [disk_free_example]; norm_num

/-- Witness for `widgets_disk_format`: the disk example queried at `/`. -/
theorem widgets_disk_format_witness :
    widgets_helper_disk_free statvfsExample "/" =
      toDouble ((4096 * 2500000) % 2 ^ 64) / 1024 / 1024 / 1024 :=
  (widgets_disk_format statvfsExample "/" ⟨4096, 2500000⟩ rfl).1

/-! ## Fallback values on a failed read -/

theorem charge_full_of_intReadFails (fs : Sysfs) (bat : String)
    (h : intReadFails fs bat "/charge_full") :
    widgets_helper_battery_charge_full fs bat = 0 := by
  unfold widgets_helper_battery_charge_full
  cases hp : esnprintf PATH_MAX "/sys/class/power_supply/" "/charge_full" bat with
  | none => rfl
  | some path => simp only [h path hp]

theorem charge_now_of_intReadFails (fs : Sysfs) (bat : String)
    (h : intReadFails fs bat "/charge_now") :
    widgets_helper_battery_charge_now fs bat = 0 := by
  unfold widgets_helper_battery_charge_now
  cases hp : esnprintf PATH_MAX "/sys/class/power_supply/" "/charge_now" bat with
  | none => rfl
  | some path => simp only [h path hp]

/-- C16, as stated, fails: a thermal zone file holding 2147483648000 is read
successfully, the millidegree value integer-divided by 1000 is 2147483648,
and the helper returns -2147483648, the quotient being above `INT_MAX` when
it is converted to the `int` result. -/
theorem cpu_temp_counterexample :
    pscanfRet 1 (some [2147483648000]) = 1 ∧
    (2147483648000 : Nat) / 1000 = 2147483648 ∧
    widgets_helper_cpu_temp (some [2147483648000]) = -2147483648 ∧
    widgets_helper_cpu_temp (some [2147483648000]) ≠ ((2147483648000 / 1000 : Nat) : Int) := by
  refine ⟨by decide, by decide, by decide, by decide⟩

/-- C16 (amended): every helper turns a failed read into its fallback, each
on its own. When the scan does not convert the expected number of fields (a
missing file included), the frequency is 0.0, the temperature 0, the
utilization 0 and the used memory 0.0; when `statvfs` fails the free space is
0.0; when its path does not fit or its scan fails, `charge_now` is 0, and
likewise `charge_full`, whatever the other read does; when the status cannot
be read the state is `UNKNOWN`. After a successful read the temperature is
the millidegree value integer-divided by 1000, provided that quotient is at
most `INT_MAX`; in general it is that quotient reduced modulo `2 ^ 32` into
the range of `int`. -/
theorem helpers_absorb_read_failure (scanF scanT scanM : ScanOutcome Nat) (a : CpuSample)
    (scanC : ScanOutcome ℚ) (statvfs : String → Option Statvfs) (path : String)
    (fs : Sysfs) (bat : String) (temp : Nat) (more : List Nat) :
    (pscanfRet 1 scanF ≠ 1 → widgets_helper_cpu_freq_num scanF = 0) ∧
    (pscanfRet 1 scanT ≠ 1 → widgets_helper_cpu_temp scanT = 0) ∧
    (pscanfRet 7 scanC ≠ 7 → (widgets_helper_cpu_perc_num a scanC).1 = .ok 0) ∧
    (pscanfRet 23 scanM ≠ 23 → widgets_helper_ram_used scanM = 0) ∧
    (statvfs path = none → widgets_helper_disk_free statvfs path = 0) ∧
    (intReadFails fs bat "/charge_now" → widgets_helper_battery_charge_now fs bat = 0) ∧
    (intReadFails fs bat "/charge_full" → widgets_helper_battery_charge_full fs bat = 0) ∧
    (statusText fs bat = none → widgets_helper_battery_state fs bat = .ok .UNKNOWN) ∧
    (temp / 1000 ≤ 2147483647 →
      widgets_helper_cpu_temp (some (temp :: more)) = ((temp / 1000 : Nat) : Int)) ∧
    widgets_helper_cpu_temp (some (temp :: more)) = convInt (temp / 1000) := by
  have hret : pscanfRet 1 (some (temp :: more)) = 1 := by
    simp [pscanfRet]
  have hgen : widgets_helper_cpu_temp (some (temp :: more)) = convInt (temp / 1000) := by
    simp [widgets_helper_cpu_temp, hret]
  refine ⟨?_, ?_, ?_, ?_, ?_, charge_now_of_intReadFails fs bat,
    charge_full_of_intReadFails fs bat, ?_, ?_, hgen⟩
  · intro h1; simp [widgets_helper_cpu_freq_num, h1]
  · intro h1; simp [widgets_helper_cpu_temp, h1]
  · intro h7; simp [widgets_helper_cpu_perc_num, h7]
  · intro h23; simp [widgets_helper_ram_used, h23]
  · intro hst; simp [widgets_helper_disk_free, hst]
  · intro hstatus; simp [widgets_helper_battery_state, hstatus]
  · intro htemp
    rw [hgen]
    unfold convInt
    omega

/-- Witness for `helpers_absorb_read_failure`: missing files for the scans, a
failed `statvfs`, the battery of `sysfsNoFull` whose `charge_full` alone
cannot be read (its `charge_now` reads 2500000), a battery whose
`charge_now` cannot be read, an unreadable status, and a thermal zone at
45678 millidegrees. -/
theorem helpers_absorb_read_failure_witness :
    widgets_helper_cpu_freq_num none = 0 ∧
    widgets_helper_cpu_temp (some []) = 0 ∧
    (widgets_helper_cpu_perc_num sampleA (some [200])).1 = .ok 0 ∧
    widgets_helper_ram_used (some [16000000, 1000000]) = 0 ∧
    widgets_helper_disk_free (fun _ => none) "/" = 0 ∧
    widgets_helper_battery_charge_now sysfsNoFull "BAT0" = 2500000 ∧
    widgets_helper_battery_charge_full sysfsNoFull "BAT0" = 0 ∧
    widgets_helper_battery_charge_now sysfsEmpty "BAT0" = 0 ∧
    widgets_helper_battery_state sysfsEmpty "BAT0" = .ok .UNKNOWN ∧
    widgets_helper_cpu_temp (some [45678]) = ((45678 / 1000 : Nat) : Int) :=
  ⟨(helpers_absorb_read_failure none (some []) (some [16000000, 1000000]) sampleA (some [200])
      (fun _ => none) "/" sysfsNoFull "BAT0" 45678 []).1 (by decide),
   (helpers_absorb_read_failure none (some []) (some [16000000, 1000000]) sampleA (some [200])
      (fun _ => none) "/" sysfsNoFull "BAT0" 45678 []).2.1 (by decide),
   (helpers_absorb_read_failure none (some []) (some [16000000, 1000000]) sampleA (some [200])
      (fun _ => none) "/" sysfsNoFull "BAT0" 45678 []).2.2.1 (by decide),
   (helpers_absorb_read_failure none (some []) (some [16000000, 1000000]) sampleA (some [200])
      (fun _ => none) "/" sysfsNoFull "BAT0" 45678 []).2.2.2.1 (by decide),
   (helpers_absorb_read_failure none (some []) (some [16000000, 1000000]) sampleA (some [200])
      (fun _ => none) "/" sysfsNoFull "BAT0" 45678 []).2.2.2.2.1 rfl,
   by decide,
   (helpers_absorb_read_failure none (some []) (some [16000000, 1000000]) sampleA (some [200])
      (fun _ => none) "/" sysfsNoFull "BAT0" 45678 []).2.2.2.2.2.2.1
      (by intro path hp; cases hp; rfl),
   (helpers_absorb_read_failure none (some []) (some [16000000, 1000000]) sampleA (some [200])
      (fun _ => none) "/" sysfsEmpty "BAT0" 45678 []).2.2.2.2.2.1 (fun _ _ => rfl),
   (helpers_absorb_read_failure none (some []) (some [16000000, 1000000]) sampleA (some [200])
      (fun _ => none) "/" sysfsEmpty "BAT0" 45678 []).2.2.2.2.2.2.2.1 (by decide),
   (helpers_absorb_read_failure none (some []) (some [16000000, 1000000]) sampleA (some [200])
      (fun _ => none) "/" sysfsEmpty "BAT0" 45678 []).2.2.2.2.2.2.2.2.1 (by decide)⟩

end Widgets
